import Mathlib

/-!
# Neuron graph: edge construction, selection state and flash scheduler

A shallow embedding of `src/ref/GPT5_VIBE_CODE.js` (and of the parts it shares with
`src/GPT5_VIBE_CODE.js`): the degree-limited edge-building loop, the selection
functions `selectNode` / `deselectNode` / `toggleSelection`, the clear-all key handler,
the auto-lighting block (`flashNodeRandomly`, `flashLinkRandomly`, the burst callback of
`autoTimer`, `window.__autoLighting.stop`) and the sampler `randomPointInSphere`.

Modelling conventions.

* Numbers are exact: coordinates are integers (any finite family of binary floats is a
  family of integers after scaling by a common power of two), times and random draws
  are rationals.  Rounding is not modelled.
* `Math.random()` is a stream `rnd : Nat → ℚ`; the state counts the draws made so far.
* `setTimeout` / `requestAnimationFrame` callbacks are data: a pending callback is a
  `Timer` value in the state, and running it is the function `fire`.
* Three.js objects are records holding the fields the code reads and writes.
-/

namespace HopfieldLab

/-! ## Graph generator -/

/-- A node position (`THREE.Vector3`). -/
structure Vector3 where
  x : Int
  y : Int
  z : Int
  deriving DecidableEq, Repr

/-- The square of `a.distanceTo(b)`. -/
def Vector3.distanceToSquared (a b : Vector3) : Int :=
  (a.x - b.x) * (a.x - b.x) + (a.y - b.y) * (a.y - b.y) + (a.z - b.z) * (a.z - b.z)

/-- An entry `{ j, d }` of `candidates`.  The field `d` stores the squared distance: the
source stores its square root, and the only uses of `d` are the comparison with
`MIN_DIST_FOR_EDGE` and the comparison of two `d`s in the sort, both of which are
unchanged by squaring. -/
structure Candidate where
  j : Nat
  d : Int
  deriving DecidableEq, Repr

/-- The test `d >= MIN_DIST_FOR_EDGE`, for `d` the square root of `dsq`. -/
def atLeastMinDist (dMin : Int) (dsq : Int) : Bool :=
  decide (dMin ≤ 0) || decide (dMin * dMin ≤ dsq)

/-- The position of node `i` (`nodes[i].position`); indices are always in range where
the loop uses it. -/
def positionOf (nodes : List Vector3) (i : Nat) : Vector3 :=
  nodes.getD i ⟨0, 0, 0⟩

/-- The inner `for (let j = 0; ...)` loop: the candidate list of node `i`, in index order. -/
def candidatesOf (nodes : List Vector3) (dMin : Int) (i : Nat) : List Candidate :=
  ((List.range nodes.length).filter fun j =>
      decide (i ≠ j) &&
        atLeastMinDist dMin ((positionOf nodes i).distanceToSquared (positionOf nodes j))).map
    fun j => ⟨j, (positionOf nodes i).distanceToSquared (positionOf nodes j)⟩

/-- The call `candidates.sort((a, b) => a.d - b.d)`: a stable ascending sort on `d`. -/
def sortCandidates (cs : List Candidate) : List Candidate :=
  cs.insertionSort fun a b => a.d ≤ b.d

/-- The data the edge-building loop writes: `degrees`, `links` (every link is recorded as
the pair of its end nodes `(i, c.j)`, in creation order) and the `neighbors` list of every
node. -/
structure Graph where
  degrees : List Nat
  links : List (Nat × Nat)
  neighbors : List (List Nat)
  deriving DecidableEq, Repr

/-- The update `degrees[k] += 1`. -/
def bump : List Nat → Nat → List Nat
  | [], _ => []
  | d :: ds, 0 => (d + 1) :: ds
  | d :: ds, k + 1 => d :: bump ds k

/-- The update `nodes[k].userData.neighbors.push(v)`. -/
def pushNeighbor : List (List Nat) → Nat → Nat → List (List Nat)
  | [], _, _ => []
  | ns :: rest, 0, v => (ns ++ [v]) :: rest
  | ns :: rest, k + 1, v => ns :: pushNeighbor rest k v

/-- The body of `if (i < c.j) { ... }` without the counter `added`. -/
def Graph.addLink (g : Graph) (i j : Nat) : Graph :=
  { degrees := bump (bump g.degrees i) j
    links := g.links ++ [(i, j)]
    neighbors := pushNeighbor (pushNeighbor g.neighbors i j) j i }

/-- The loop `for (const c of candidates)` of node `i`, started with the counter `added`. -/
def acceptLoop (dMax : Nat) (i : Nat) : List Candidate → Nat → Graph → Graph
  | [], _, g => g
  | c :: cs, added, g =>
    if added ≥ dMax then g
    else if g.degrees.getD c.j 0 ≥ dMax then acceptLoop dMax i cs added g
    else if i < c.j then acceptLoop dMax i cs (added + 1) (g.addLink i c.j)
    else acceptLoop dMax i cs added g

/-- One iteration of the outer loop, for node `i`. -/
def processNode (nodes : List Vector3) (dMin : Int) (dMax : Nat) (g : Graph) (i : Nat) : Graph :=
  acceptLoop dMax i (sortCandidates (candidatesOf nodes dMin i)) 0 g

/-- The state before the loop: `degrees` filled with 0, no link, empty neighbor lists. -/
def emptyGraph (n : Nat) : Graph :=
  { degrees := List.replicate n 0, links := [], neighbors := List.replicate n [] }

/-- The edge-building loop, with `dMin = MIN_DIST_FOR_EDGE` and `dMax = MAX_EDGES_PER_NODE`. -/
def buildEdges (nodes : List Vector3) (dMin : Int) (dMax : Nat) : Graph :=
  (List.range nodes.length).foldl (processNode nodes dMin dMax) (emptyGraph nodes.length)

/-- Ten nodes on a line, 5 apart, inside the sphere of radius 50. -/
def lineNodes : List Vector3 :=
  (List.range 10).map fun k => ⟨5 * (k : Int) - 20, 0, 0⟩

/-- Three nodes on a line: the smallest input on which a node exceeds the cap. -/
def threeNodes : List Vector3 := [⟨0, 0, 0⟩, ⟨1, 0, 0⟩, ⟨3, 0, 0⟩]

/-- The real-number reading of `d >= dMin` for the nodes `a` and `b`: the Euclidean
distance between them is at least `dMin`. -/
def DistAtLeast (dMin : Int) (a b : Vector3) : Prop :=
  (dMin : ℝ) ≤ Real.sqrt ((a.distanceToSquared b : Int) : ℝ)

/-! ## Selection state -/

/-- The arguments of `new THREE.PointLight(color, intensity, distance, decay)`. -/
structure PointLight where
  color : Nat
  intensity : ℚ
  distance : ℚ
  decay : ℚ
  deriving DecidableEq

/-- A glow sprite made by `makeGlowSprite`; `scale` is the value given to
`sprite.scale.setScalar`. -/
structure Sprite where
  scale : ℚ
  deriving DecidableEq

/-- An object attached to a node mesh by `node.add`. -/
inductive Child where
  | light (l : PointLight)
  | sprite (s : Sprite)
  deriving DecidableEq

/-- The visual constants of the selection functions, by which the two source files differ. -/
structure Style where
  lightColor : Nat
  lightIntensity : ℚ
  lightDistance : ℚ
  selectedEmissive : Nat
  selectedIntensity : ℚ
  idleEmissive : Nat
  idleIntensity : ℚ

/-- The constants of `src/ref/GPT5_VIBE_CODE.js`. -/
def refStyle : Style :=
  { lightColor := 0xf8fbff, lightIntensity := 26 / 10, lightDistance := 14,
    selectedEmissive := 0x1b4048, selectedIntensity := 14 / 10,
    idleEmissive := 0x073842, idleIntensity := 1 }

/-- The constants of `src/GPT5_VIBE_CODE.js`. -/
def mainStyle : Style :=
  { lightColor := 0xf0f1ff, lightIntensity := 16 / 10, lightDistance := 10,
    selectedEmissive := 0x16303a, selectedIntensity := 9 / 10,
    idleEmissive := 0x05202c, idleIntensity := 6 / 10 }

/-- A node mesh: its `userData` fields that the selection and flash code uses, its
material's emissive colour and intensity, and its attached objects. -/
structure Node where
  radius : ℚ
  selected : Bool
  selectionLight : Option PointLight
  glowSprite : Option Sprite
  autoLit : Bool
  neighbors : List Nat
  emissive : Nat
  emissiveIntensity : ℚ
  children : List Child
  deriving DecidableEq

/-- The function `selectNode`. -/
def selectNode (st : Style) (node : Node) : Node :=
  if node.selected then node
  else
    let pl : PointLight := ⟨st.lightColor, st.lightIntensity, st.lightDistance, 2⟩
    let sprite : Sprite := ⟨(1 + node.radius * (15 / 100)) * (36 / 10)⟩
    { node with
      selectionLight := some pl
      glowSprite := some sprite
      children := node.children ++ [Child.light pl, Child.sprite sprite]
      emissive := st.selectedEmissive
      emissiveIntensity := st.selectedIntensity
      selected := true }

/-- The statement `if (obj) node.remove(obj)`. -/
def removeChild (children : List Child) : Option Child → List Child
  | none => children
  | some c => children.erase c

/-- The function `deselectNode`. -/
def deselectNode (st : Style) (node : Node) : Node :=
  if !node.selected then node
  else
    { node with
      children :=
        removeChild (removeChild node.children (node.selectionLight.map Child.light))
          (node.glowSprite.map Child.sprite)
      selectionLight := none
      glowSprite := none
      emissive := st.idleEmissive
      emissiveIntensity := st.idleIntensity
      selected := false }

/-- The function `toggleSelection`. -/
def toggleSelection (st : Style) (node : Node) : Node :=
  if node.selected then deselectNode st node else selectNode st node

/-! ## Auto-lighting -/

/-- The three components of `link.scale`. -/
structure Scale3 where
  x : ℚ
  y : ℚ
  z : ℚ
  deriving DecidableEq

/-- The call `v.clone().multiplyScalar(k)`. -/
def Scale3.multiplyScalar (v : Scale3) (k : ℚ) : Scale3 :=
  ⟨v.x * k, v.y * k, v.z * k⟩

/-- The call `v.lerp(target, alpha)`. -/
def Scale3.lerp (v target : Scale3) (alpha : ℚ) : Scale3 :=
  ⟨v.x + (target.x - v.x) * alpha, v.y + (target.y - v.y) * alpha,
    v.z + (target.z - v.z) * alpha⟩

/-- A link mesh: its material's emissive colour and intensity, its scale and its
`userData`. -/
structure Link where
  emissive : Nat
  emissiveIntensity : ℚ
  scale : Scale3
  baseEmissive : Nat
  baseEmissiveIntensity : ℚ
  autoLit : Bool
  deriving DecidableEq

/-- A member of the set `autoActive`. -/
inductive Entity where
  | node (i : Nat)
  | link (i : Nat)
  deriving DecidableEq

/-- A pending callback.
* `expiry node wasSelected duration`: the closure given to `setTimeout(..., duration)` at
  the end of `flashNodeRandomly`;
* `cascade neighbor ndur delay`: the closure
  `() => flashNodeRandomly(neighbor, ndur, true)` given to `setTimeout(..., delay)`;
  `neighbor` is `none` when `neigh.splice(idx, 1)[0]` is `undefined`;
* `pulse link duration start baseEmissive baseIntensity targetScale`: the closure
  `animatePulse` given to `requestAnimationFrame`, with the variables it captures. -/
inductive Timer where
  | expiry (node : Nat) (wasSelected : Bool) (duration : ℚ)
  | cascade (neighbor : Option Nat) (ndur : ℚ) (delay : ℚ)
  | pulse (link : Nat) (duration : ℚ) (start : ℚ) (baseEmissive : Nat) (baseIntensity : ℚ)
      (targetScale : Scale3)
  deriving DecidableEq

/-- The constants of the auto-lighting block. -/
structure AutoConfig where
  nodeProbability : ℚ
  minFlashMs : ℚ
  maxFlashMs : ℚ
  maxSimultaneous : Nat
  clusterChance : ℚ
  clusterFactor : ℚ

/-- The values in `src/ref/GPT5_VIBE_CODE.js`. -/
def refConfig : AutoConfig :=
  { nodeProbability := 48 / 100, minFlashMs := 20, maxFlashMs := 30, maxSimultaneous := 20,
    clusterChance := 36 / 100, clusterFactor := 35 / 100 }

/-- The mutable data of the page: the node and link meshes, the set `autoActive` (in
insertion order), the pending callbacks (in the order they were armed), whether the
interval `autoTimer` is still set, and the number of `Math.random()` calls made. -/
structure State where
  nodes : List Node
  links : List Link
  autoActive : List Entity
  timers : List Timer
  running : Bool
  draws : Nat
  deriving DecidableEq

/-- The call `autoActive.add(e)`. -/
def setAdd (set : List Entity) (e : Entity) : List Entity :=
  if e ∈ set then set else set ++ [e]

/-- The call `autoActive.delete(e)`. -/
def setDelete (set : List Entity) (e : Entity) : List Entity :=
  set.erase e

/-- The loop `for (let i = 0; i < pickCount; i++)` of `flashNodeRandomly`, with `count`
iterations left: three draws per iteration (index, duration scale, delay), one neighbor
spliced out of `neigh`, one cascade callback armed. -/
def pickNeighbors (rnd : Nat → ℚ) (duration : ℚ) : Nat → List Nat → State → State
  | 0, _, s => s
  | count + 1, neigh, s =>
    let idx := ⌊rnd s.draws * (neigh.length : ℚ)⌋₊
    let neighbor := neigh[idx]?
    let ndur := max 220 (duration * (35 / 100 + rnd (s.draws + 1) * (6 / 10)))
    let delay := 20 + rnd (s.draws + 2) * 90
    pickNeighbors rnd duration count (neigh.eraseIdx idx)
      { s with
        draws := s.draws + 3
        timers := s.timers ++ [Timer.cascade neighbor ndur delay] }

/-- The value of `pickCount` for a node with `n` neighbors. -/
def pickCount (cfg : AutoConfig) (n : Nat) : Nat :=
  max 1 ⌊(n : ℚ) * cfg.clusterFactor⌋₊

/-- The function `flashNodeRandomly(node, duration, isClustered)`; `node` is `none` for
`undefined`. -/
def flashNodeRandomly (st : Style) (cfg : AutoConfig) (rnd : Nat → ℚ) (s : State)
    (node : Option Nat) (duration : ℚ) (isClustered : Bool) : State :=
  match node with
  | none => s
  | some k =>
    match s.nodes[k]? with
    | none => s
    | some n =>
      if n.autoLit then s
      else
        let wasSelected := n.selected
        let lit := selectNode st { n with autoLit := true }
        let s1 : State :=
          { s with
            nodes := s.nodes.set k lit
            autoActive := setAdd s.autoActive (Entity.node k) }
        let s2 : State :=
          if isClustered then s1
          else
            let s1d : State := { s1 with draws := s1.draws + 1 }
            if rnd s1.draws < cfg.clusterChance ∧ 0 < lit.neighbors.length then
              pickNeighbors rnd duration (pickCount cfg lit.neighbors.length) lit.neighbors s1d
            else s1d
        { s2 with timers := s2.timers ++ [Timer.expiry k wasSelected duration] }

/-- The function `flashLinkRandomly(link, duration)` up to its first
`requestAnimationFrame`; `now` is the value of `performance.now()`. -/
def flashLinkRandomly (s : State) (link : Option Nat) (duration : ℚ) (now : ℚ) : State :=
  match link with
  | none => s
  | some k =>
    match s.links[k]? with
    | none => s
    | some l =>
      if l.autoLit then s
      else
        { s with
          links := s.links.set k { l with autoLit := true, emissive := 0x9ff7ff }
          autoActive := setAdd s.autoActive (Entity.link k)
          timers := s.timers ++
            [Timer.pulse k duration now l.baseEmissive l.baseEmissiveIntensity
              (l.scale.multiplyScalar (124 / 100))] }

/-- The function `animatePulse(now)` of the flash of link `k`; `sinPi t` is the value of
`Math.sin(Math.PI * t)`. -/
def animatePulse (sinPi : ℚ → ℚ) (s : State) (k : Nat) (duration start : ℚ)
    (baseEmissive : Nat) (baseIntensity : ℚ) (targetScale : Scale3) (now : ℚ) : State :=
  match s.links[k]? with
  | none => s
  | some l =>
    let elapsed := now - start
    if elapsed < duration then
      let amp := sinPi (elapsed / duration)
      { s with
        links := s.links.set k
          { l with
            emissiveIntensity := baseIntensity + (26 / 10 - baseIntensity) * amp
            scale := l.scale.lerp targetScale (8 / 100 * amp + 2 / 100) }
        timers := s.timers ++
          [Timer.pulse k duration start baseEmissive baseIntensity targetScale] }
    else
      { s with
        links := s.links.set k
          { l with
            emissive := baseEmissive
            emissiveIntensity := baseIntensity
            scale := l.scale.lerp (l.scale.multiplyScalar (9999 / 10000)) (1 / 2)
            autoLit := false }
        autoActive := setDelete s.autoActive (Entity.link k) }

/-- The callback armed at the end of `flashNodeRandomly`. -/
def expire (st : Style) (s : State) (k : Nat) (wasSelected : Bool) : State :=
  match s.nodes[k]? with
  | none => s
  | some n =>
    let idle : Node := { n with autoLit := false }
    { s with
      nodes := s.nodes.set k (if !wasSelected then deselectNode st idle else idle)
      autoActive := setDelete s.autoActive (Entity.node k) }

/-- The indices of the entities that pass the filter `x => !x.userData.autoLit`. -/
def idleIndices {α : Type} (autoLit : α → Bool) (xs : List α) : List Nat :=
  (List.range xs.length).filter fun i =>
    match xs[i]? with
    | some x => !autoLit x
    | none => false

/-- The loop `for (let b = 0; b < burstSize; b++)` of the burst callback, with `count`
iterations left. -/
def burstLoop (st : Style) (cfg : AutoConfig) (rnd : Nat → ℚ) (now : ℚ) : Nat → State → State
  | 0, s => s
  | count + 1, s =>
    if s.autoActive.length ≥ cfg.maxSimultaneous then s
    else
      let s1 : State := { s with draws := s.draws + 1 }
      if rnd s.draws < cfg.nodeProbability ∧ 0 < s.nodes.length then
        let candidates := idleIndices Node.autoLit s.nodes
        if candidates.length = 0 then burstLoop st cfg rnd now count s1
        else
          let node := candidates[⌊rnd s1.draws * (candidates.length : ℚ)⌋₊]?
          let dur := cfg.minFlashMs + rnd (s1.draws + 1) * (cfg.maxFlashMs - cfg.minFlashMs)
          burstLoop st cfg rnd now count
            (flashNodeRandomly st cfg rnd { s1 with draws := s1.draws + 2 } node dur false)
      else if 0 < s.links.length then
        let candidates := idleIndices Link.autoLit s.links
        if candidates.length = 0 then burstLoop st cfg rnd now count s1
        else
          let link := candidates[⌊rnd s1.draws * (candidates.length : ℚ)⌋₊]?
          let dur := cfg.minFlashMs + rnd (s1.draws + 1) * (cfg.maxFlashMs - cfg.minFlashMs)
          burstLoop st cfg rnd now count
            (flashLinkRandomly { s1 with draws := s1.draws + 2 } link dur now)
      else burstLoop st cfg rnd now count s1

/-- The callback of `autoTimer`. -/
def burstTick (st : Style) (cfg : AutoConfig) (rnd : Nat → ℚ) (now : ℚ) (s : State) : State :=
  burstLoop st cfg rnd now (8 + ⌊rnd s.draws * 24⌋₊) { s with draws := s.draws + 1 }

/-- Running a pending callback at time `now`. -/
def fire (st : Style) (cfg : AutoConfig) (rnd : Nat → ℚ) (sinPi : ℚ → ℚ) (s : State) (now : ℚ) :
    Timer → State
  | Timer.expiry k wasSelected _ => expire st s k wasSelected
  | Timer.cascade neighbor ndur _ => flashNodeRandomly st cfg rnd s neighbor ndur true
  | Timer.pulse k duration start baseEmissive baseIntensity targetScale =>
    animatePulse sinPi s k duration start baseEmissive baseIntensity targetScale now

/-- The `pointerdown` handler when the ray hits node `k`. -/
def pointerDown (st : Style) (s : State) (k : Nat) : State :=
  match s.nodes[k]? with
  | none => s
  | some n => { s with nodes := s.nodes.set k (toggleSelection st n) }

/-- The `keydown` handler for the key `c`: `nodes.forEach(n => deselectNode(n))`. -/
def clearAll (st : Style) (s : State) : State :=
  { s with nodes := s.nodes.map (deselectNode st) }

/-- What can happen to the page: the interval fires, a pending callback (the `idx`-th in
arming order) runs, the user clicks node `k`, the user presses `c`, or
`window.__autoLighting.stop()` is called. -/
inductive Event where
  | tick (now : ℚ)
  | timer (idx : Nat) (now : ℚ)
  | click (k : Nat)
  | keyC
  | stop

/-- The effect of one event. -/
def step (st : Style) (cfg : AutoConfig) (rnd : Nat → ℚ) (sinPi : ℚ → ℚ) (s : State) :
    Event → State
  | Event.tick now => if s.running then burstTick st cfg rnd now s else s
  | Event.timer idx now =>
    match s.timers[idx]? with
    | none => s
    | some t => fire st cfg rnd sinPi { s with timers := s.timers.eraseIdx idx } now t
  | Event.click k => pointerDown st s k
  | Event.keyC => clearAll st s
  | Event.stop => { s with running := false }

/-- The effect of a sequence of events. -/
def run (st : Style) (cfg : AutoConfig) (rnd : Nat → ℚ) (sinPi : ℚ → ℚ) (s : State)
    (events : List Event) : State :=
  events.foldl (step st cfg rnd sinPi) s

/-- A node mesh as the node-creation loop leaves it, with the neighbor list the
edge-building loop gives it. -/
def newNode (radius intensity : ℚ) (neighbors : List Nat) : Node :=
  { radius := radius, selected := false, selectionLight := none, glowSprite := none,
    autoLit := false, neighbors := neighbors, emissive := 0x073842,
    emissiveIntensity := intensity, children := [] }

/-- A link mesh as `createThickMiddleConnector` and the edge-building loop leave it;
`scaleXY` is the value `0.85 + Math.random() * 0.3`. -/
def newLink (scaleXY : ℚ) : Link :=
  { emissive := 0x001a2b, emissiveIntensity := 12 / 100, scale := ⟨scaleXY, scaleXY, 1⟩,
    baseEmissive := 0x001a2b, baseEmissiveIntensity := 12 / 100, autoLit := false }

/-- The page once the script has run to its end: the graph `g` built, nothing selected,
nothing lit, `autoTimer` set.  `radius`, `intensity` and `linkScale` give the random
per-mesh values. -/
def initialState (g : Graph) (radius intensity linkScale : Nat → ℚ) : State :=
  { nodes := (List.range g.neighbors.length).map fun i =>
      newNode (radius i) (intensity i) (g.neighbors.getD i [])
    links := (List.range g.links.length).map fun i => newLink (linkScale i)
    autoActive := []
    timers := []
    running := true
    draws := 0 }

/-- The states the page can be in: those that a sequence of events leads to from the
initial state. -/
inductive Reachable (st : Style) (cfg : AutoConfig) (rnd : Nat → ℚ) (sinPi : ℚ → ℚ)
    (s0 : State) : State → Prop where
  | init : Reachable st cfg rnd sinPi s0 s0
  | next {s : State} (e : Event) :
    Reachable st cfg rnd sinPi s0 s → Reachable st cfg rnd sinPi s0 (step st cfg rnd sinPi s e)

/-! ## Concrete scenes -/

/-- Two nodes 8 apart, joined by one link (`MIN_DIST_FOR_EDGE = 8`,
`MAX_EDGES_PER_NODE = 2`). -/
def pairScene : State :=
  initialState (buildEdges [⟨0, 0, 0⟩, ⟨8, 0, 0⟩] 8 2) (fun _ => 1 / 5) (fun _ => 1) (fun _ => 1)

/-- The source's constants with `MAX_SIMULTANEOUS = 1`. -/
def capOne : AutoConfig := { refConfig with maxSimultaneous := 1 }

/-- A stream of draws: the fourth is 0.9, every other one is 0. -/
def drawsA (k : Nat) : ℚ := if k = 3 then 9 / 10 else 0

/-- A stand-in for `Math.sin(Math.PI * t)` where its value does not matter. -/
def flatSin (_ : ℚ) : ℚ := 0

/-- A stream of draws on which no cluster burst happens: the fifth draw is 0.5, every
other one is 0. -/
def drawsB (k : Nat) : ℚ := if k = 4 then 1 / 2 else 0

/-- The stream of draws that starts with the list `l` and continues with 0. -/
def listDraws (l : List ℚ) (k : Nat) : ℚ := l.getD k 0

/-- Draws for one burst on the two-node scene: node 0 flashes for 20 ms and arms a
cascade on node 1 with delay 30 ms; node 1 flashes for 20 ms without a cascade. -/
def drawsC : Nat → ℚ := listDraws [0, 0, 0, 0, 0, 0, 0, 1 / 9, 0, 0, 0, 1 / 2]

/-- The 27 points of the grid `{-8, 0, 8}³`, all inside the sphere of radius
`SPREAD = 15`. -/
def gridNodes : List Vector3 :=
  (List.range 27).map fun k =>
    ⟨8 * ((k / 9 : Nat) : Int) - 8, 8 * ((k / 3 % 3 : Nat) : Int) - 8,
      8 * ((k % 3 : Nat) : Int) - 8⟩

/-- The page for the grid nodes with the source's `MIN_DIST_FOR_EDGE = 8` and
`MAX_EDGES_PER_NODE = 2`. -/
def gridScene : State :=
  initialState (buildEdges gridNodes 8 2) (fun _ => 1 / 5) (fun _ => 1) (fun _ => 1)

/-- Draws for one burst of size 20 on the grid scene: the nodes 0 to 19 flash for 29 ms
each; only node 19 starts a cluster burst, arming a cascade on its neighbor 25 with
delay 20 ms. -/
def drawsGrid : Nat → ℚ :=
  listDraws ([1 / 2] ++ (List.replicate 19 [0, 0, 9 / 10, 1 / 2]).flatten ++
    [0, 0, 9 / 10, 0, 1 / 2, 0, 0])

/-- A node that is not selected carries no selection light and no glow sprite. -/
def NodeOk (n : Node) : Prop :=
  n.selected = false → n.selectionLight = none ∧ n.glowSprite = none

/-- Every node of the state satisfies `NodeOk`. -/
def NodesOk (s : State) : Prop :=
  ∀ n ∈ s.nodes, NodeOk n

/-- What holds of the links after the outer loop has run for the nodes below `k`. -/
structure LinksOk (nodes : List Vector3) (dMin : Int) (k : Nat) (links : List (Nat × Nat)) :
    Prop where
  nodup : links.Nodup
  below : ∀ e ∈ links, e.1 < k
  ordered : ∀ e ∈ links, e.1 < e.2
  inRange : ∀ e ∈ links, e.2 < nodes.length
  far : ∀ e ∈ links,
    atLeastMinDist dMin
      ((positionOf nodes e.1).distanceToSquared (positionOf nodes e.2)) = true

/-! ## Quantities and invariants used in the statements -/

/-- The graph when the outer loop reaches node `i`: the iterations of the nodes below `i`
have run. -/
def graphBefore (nodes : List Vector3) (dMin : Int) (dMax : Nat) (i : Nat) : Graph :=
  (List.range i).foldl (processNode nodes dMin dMax) (emptyGraph nodes.length)

/-- The number of links of `g` that node `k` received from a lower-indexed node. -/
def inCount (g : Graph) (k : Nat) : Nat :=
  (g.links.filter fun e => e.2 = k).length

/-- The number of links of `g` that node `k` created in its own iteration. -/
def outCount (g : Graph) (k : Nat) : Nat :=
  (g.links.filter fun e => e.1 = k).length

/-- The number of links of `g` incident to node `k`. -/
def incidentCount (g : Graph) (k : Nat) : Nat :=
  (g.links.filter fun e => e.1 = k ∨ e.2 = k).length

/-- The value of `degrees[k]` at the moment the loop of node `i` reaches the candidate
`k`: the candidates sorted before `k` have been handled. -/
def degreeWhenConsidered (nodes : List Vector3) (dMin : Int) (dMax : Nat) (i k : Nat) : Nat :=
  (acceptLoop dMax i
    ((sortCandidates (candidatesOf nodes dMin i)).takeWhile fun c => c.j != k) 0
    (graphBefore nodes dMin dMax i)).degrees.getD k 0

/-- What holds during the loop of node `i`, when `added` links have been made in it. -/
structure LoopOk (dMax n i added : Nat) (g : Graph) : Prop where
  len : g.degrees.length = n
  sum : ∀ k, g.degrees.getD k 0 = inCount g k + outCount g k
  inB : ∀ k, inCount g k ≤ dMax
  outB : ∀ k, outCount g k ≤ dMax
  outI : outCount g i = added
  outL : ∀ k, i < k → outCount g k = 0

/-- What holds when the outer loop reaches node `m`. -/
structure PrefixOk (dMax n m : Nat) (g : Graph) : Prop where
  len : g.degrees.length = n
  sum : ∀ k, g.degrees.getD k 0 = inCount g k + outCount g k
  inB : ∀ k, inCount g k ≤ dMax
  outB : ∀ k, outCount g k ≤ dMax
  outL : ∀ k, m ≤ k → outCount g k = 0

/-- The duration `ndur` of a cascade flash whose parent lasts `duration`, for the scale
draw `r`. -/
def cascadeDuration (duration r : ℚ) : ℚ :=
  max 220 (duration * (35 / 100 + r * (6 / 10)))

/-- The delay of a cascade callback, for the draw `r`. -/
def cascadeDelay (r : ℚ) : ℚ :=
  20 + r * 90

/-- A timer is a cascade callback armed by a flash that lasts `duration`. -/
def IsCascadeOf (rnd : Nat → ℚ) (duration : ℚ) (t : Timer) : Prop :=
  ∃ nb a b, t = Timer.cascade nb (cascadeDuration duration (rnd a)) (cascadeDelay (rnd b))

/-- The registry and the `autoLit` flags agree: the registry has no repetition, and a
node or link is a member exactly when it exists and its flag is set. -/
structure RegistryOk (s : State) : Prop where
  nodup : s.autoActive.Nodup
  nodes : ∀ k, Entity.node k ∈ s.autoActive ↔ (s.nodes[k]?).map Node.autoLit = some true
  links : ∀ k, Entity.link k ∈ s.autoActive ↔ (s.links[k]?).map Link.autoLit = some true

/-- The entity exists in `s` and its `autoLit` flag is not set. -/
def IdleIn (s : State) : Entity → Prop
  | Entity.node k => (s.nodes[k]?).map Node.autoLit = some false
  | Entity.link k => (s.links[k]?).map Link.autoLit = some false

/-- What holds of the state `s` during a burst that started in the state `s0`, for the
cap `cap`. -/
structure TickOk (cap : Nat) (s0 s : State) : Prop where
  size : s.autoActive.length ≤ max s0.autoActive.length cap
  fresh : ∀ e ∈ s.autoActive, e ∈ s0.autoActive ∨ IdleIn s0 e
  nodes : ∀ k : Nat, (s.nodes[k]?).map Node.autoLit = some false →
    (s0.nodes[k]?).map Node.autoLit = some false
  links : ∀ k : Nat, (s.links[k]?).map Link.autoLit = some false →
    (s0.links[k]?).map Link.autoLit = some false

/-- The durations of the callbacks that a burst arms: the expiry of a node flash and
the animation of a link flash last between `MIN_FLASH_MS` and `MAX_FLASH_MS`; a cascade
callback carries the duration `cascadeDuration parent r` for a parent flash of such a
length and a draw `r` in [0, 1). -/
def ArmedInBurst (cfg : AutoConfig) : Timer → Prop
  | Timer.expiry _ _ d => cfg.minFlashMs ≤ d ∧ d ≤ cfg.maxFlashMs
  | Timer.pulse _ d _ _ _ _ => cfg.minFlashMs ≤ d ∧ d ≤ cfg.maxFlashMs
  | Timer.cascade _ nd _ =>
    ∃ parent r, cfg.minFlashMs ≤ parent ∧ parent ≤ cfg.maxFlashMs ∧ 0 ≤ r ∧ r < 1 ∧
      nd = cascadeDuration parent r

/-- A point returned by `randomPointInSphere` (`THREE.Vector3` with the coordinates it is
given). -/
structure SpherePoint where
  x : ℚ
  y : ℚ
  z : ℚ
  deriving DecidableEq

/-- The point of the bounding cube that one round of `randomPointInSphere` draws, the
first of its three draws being draw number `draws`. -/
def cubePoint (rnd : Nat → ℚ) (radius : ℚ) (draws : Nat) : SpherePoint :=
  ⟨(rnd draws * 2 - 1) * radius, (rnd (draws + 1) * 2 - 1) * radius,
    (rnd (draws + 2) * 2 - 1) * radius⟩

/-- The test `x * x + y * y + z * z <= radius * radius`. -/
def SpherePoint.inside (p : SpherePoint) (radius : ℚ) : Prop :=
  p.x * p.x + p.y * p.y + p.z * p.z ≤ radius * radius

instance (p : SpherePoint) (radius : ℚ) : Decidable (p.inside radius) :=
  inferInstanceAs (Decidable (_ ≤ _))

/-- The function `randomPointInSphere(radius)` run for at most `fuel` rounds of its
`while (true)` loop, `draws` draws having been made before; it gives the returned point
and the number of draws made, or `none` when no round within the fuel accepts. -/
def randomPointInSphere (rnd : Nat → ℚ) (radius : ℚ) : Nat → Nat → Option (SpherePoint × Nat)
  | 0, _ => none
  | fuel + 1, draws =>
    if (cubePoint rnd radius draws).inside radius then
      some (cubePoint rnd radius draws, draws + 3)
    else randomPointInSphere rnd radius fuel (draws + 3)

/-- Six draws for `randomPointInSphere`: the first round draws the corner `(-R, -R, -R)`
of the cube, the second the centre. -/
def drawsSphere : Nat → ℚ := listDraws [0, 0, 0, 1 / 2, 1 / 2, 1 / 2]

/-- Four nodes 8 apart on a line, inside the sphere of radius `SPREAD = 15`. -/
def fourNodes : List Vector3 := [⟨-12, 0, 0⟩, ⟨-4, 0, 0⟩, ⟨4, 0, 0⟩, ⟨12, 0, 0⟩]

/-- The page for the four nodes with the source's `MIN_DIST_FOR_EDGE = 8` and
`MAX_EDGES_PER_NODE = 2`; node 1 has the three neighbors 0, 2 and 3. -/
def fourScene : State :=
  initialState (buildEdges fourNodes 8 2) (fun _ => 1 / 5) (fun _ => 1) (fun _ => 1)

/-- The stream of draws that are all 0. -/
def zeroDraws (_ : Nat) : ℚ := 0

/-- Four nodes on a line: node 0 takes node 2, the nearest node to node 1, before the
loop of node 1 runs. -/
def skipNodes : List Vector3 := [⟨0, 0, 0⟩, ⟨3, 0, 0⟩, ⟨1, 0, 0⟩, ⟨6, 0, 0⟩]

/-- Draws for one burst that flashes link 0 for 20 ms and nothing else. -/
def drawsLink (k : Nat) : ℚ := if k = 0 ∨ k = 2 ∨ k = 3 then 0 else 1 / 2

/-- A stand-in for `Math.sin(Math.PI * t)` that has its values at `t = 0` and
`t = 1/2`. -/
def peakSin (t : ℚ) : ℚ := if t = 1 / 2 then 1 else 0

/-- The two-node scene after one burst with the draws `drawsC`: both nodes are lit, and
the pending callbacks are the cascade on node 1 and the two expiries. -/
def litPair : State :=
  run refStyle refConfig drawsC flatSin pairScene [Event.tick 0]

/-! ## Lemmas on the edge-building loop -/

theorem atLeastMinDist_iff (dMin dsq : Int) :
    atLeastMinDist dMin dsq = true ↔ (dMin : ℝ) ≤ Real.sqrt (dsq : ℝ) := by
  unfold atLeastMinDist
  rcases le_or_lt dMin 0 with h | h
  · have h1 : (dMin : ℝ) ≤ 0 := by exact_mod_cast h
    simp only [h, decide_True, Bool.true_or, true_iff]
    exact le_trans h1 (Real.sqrt_nonneg _)
  · have h1 : (0 : ℝ) < (dMin : ℝ) := by exact_mod_cast h
    have h2 : ¬ dMin ≤ 0 := not_le.mpr h
    simp only [h2, decide_False, Bool.false_or, decide_eq_true_eq]
    rw [Real.le_sqrt' h1]
    constructor
    · intro h3
      have : ((dMin * dMin : Int) : ℝ) ≤ (dsq : ℝ) := by exact_mod_cast h3
      simpa [pow_two] using this
    · intro h3
      have : ((dMin * dMin : Int) : ℝ) ≤ (dsq : ℝ) := by simpa [pow_two] using h3
      exact_mod_cast this

theorem candidatesOf_map_j (nodes : List Vector3) (dMin : Int) (i : Nat) :
    (candidatesOf nodes dMin i).map (fun c => c.j) =
      (List.range nodes.length).filter fun j =>
        decide (i ≠ j) &&
          atLeastMinDist dMin ((positionOf nodes i).distanceToSquared (positionOf nodes j)) := by
  unfold candidatesOf
  rw [List.map_map]
  exact List.map_id _

theorem mem_candidatesOf {nodes : List Vector3} {dMin : Int} {i : Nat} {c : Candidate}
    (h : c ∈ candidatesOf nodes dMin i) :
    c.j < nodes.length ∧ i ≠ c.j ∧
      atLeastMinDist dMin
        ((positionOf nodes i).distanceToSquared (positionOf nodes c.j)) = true := by
  unfold candidatesOf at h
  rw [List.mem_map] at h
  obtain ⟨j, hj, rfl⟩ := h
  rw [List.mem_filter, List.mem_range] at hj
  simp only [Bool.and_eq_true, decide_eq_true_eq] at hj
  exact ⟨hj.1, hj.2.1, hj.2.2⟩

theorem sortCandidates_perm (cs : List Candidate) : (sortCandidates cs).Perm cs :=
  List.perm_insertionSort _ cs

theorem sortCandidates_nodup (nodes : List Vector3) (dMin : Int) (i : Nat) :
    ((sortCandidates (candidatesOf nodes dMin i)).map fun c => c.j).Nodup := by
  have hp := (sortCandidates_perm (candidatesOf nodes dMin i)).map fun c => c.j
  rw [hp.nodup_iff, candidatesOf_map_j]
  exact (List.nodup_range _).filter _

/-- The links of one `for (const c of candidates)` loop: the old links followed by the
links `(i, j)` for a sublist of the candidates' indices, all of them above `i`. -/
theorem acceptLoop_links (dMax i : Nat) (cs : List Candidate) :
    ∀ (added : Nat) (g : Graph), ∃ js : List Nat,
      (acceptLoop dMax i cs added g).links = g.links ++ js.map (fun j => (i, j)) ∧
        js.Sublist (cs.map fun c => c.j) ∧ ∀ j ∈ js, i < j := by
  induction cs with
  | nil => intro added g; exact ⟨[], by simp [acceptLoop], List.Sublist.refl _, by simp⟩
  | cons c cs ih =>
    intro added g
    unfold acceptLoop
    split_ifs with h1 h2 h3
    · exact ⟨[], by simp, List.nil_sublist _, by simp⟩
    · obtain ⟨js, e, hs, hl⟩ := ih added g
      exact ⟨js, e, hs.cons _, hl⟩
    · obtain ⟨js, e, hs, hl⟩ := ih (added + 1) (g.addLink i c.j)
      refine ⟨c.j :: js, ?_, hs.cons₂ _, ?_⟩
      · rw [e]; simp [Graph.addLink]
      · intro j hj
        rcases List.mem_cons.mp hj with rfl | hj
        · exact h3
        · exact hl j hj
    · obtain ⟨js, e, hs, hl⟩ := ih added g
      exact ⟨js, e, hs.cons _, hl⟩

/-- The graph after the outer loop has run for the nodes `0 .. k-1`. -/
theorem foldl_range_succ (nodes : List Vector3) (dMin : Int) (dMax k : Nat) (g : Graph) :
    (List.range (k + 1)).foldl (processNode nodes dMin dMax) g =
      processNode nodes dMin dMax ((List.range k).foldl (processNode nodes dMin dMax) g) k := by
  rw [List.range_succ, List.foldl_append]
  rfl

theorem linksOk_upTo (nodes : List Vector3) (dMin : Int) (dMax : Nat) :
    ∀ k, LinksOk nodes dMin k
      ((List.range k).foldl (processNode nodes dMin dMax) (emptyGraph nodes.length)).links := by
  intro k
  induction k with
  | zero =>
    refine ⟨?_, ?_, ?_, ?_, ?_⟩ <;> simp [emptyGraph]
  | succ k ih =>
    rw [foldl_range_succ]
    generalize (List.range k).foldl (processNode nodes dMin dMax) (emptyGraph nodes.length) = g
      at ih ⊢
    unfold processNode
    obtain ⟨js, e, hs, hl⟩ :=
      acceptLoop_links dMax k (sortCandidates (candidatesOf nodes dMin k)) 0 g
    have hjs : ∀ j ∈ js, ∃ c ∈ candidatesOf nodes dMin k, c.j = j := by
      intro j hj
      have := hs.subset hj
      rw [List.mem_map] at this
      obtain ⟨c, hc, rfl⟩ := this
      exact ⟨c, (sortCandidates_perm _).subset hc, rfl⟩
    rw [e]
    refine ⟨?_, ?_, ?_, ?_, ?_⟩
    · rw [List.nodup_append]
      refine ⟨ih.nodup, ?_, ?_⟩
      · exact ((sortCandidates_nodup nodes dMin k).sublist hs).map
          (fun a b hab => (Prod.mk.inj hab).2)
      · intro x hx hx2
        rw [List.mem_map] at hx2
        obtain ⟨j, _, rfl⟩ := hx2
        exact absurd (ih.below _ hx) (lt_irrefl _)
    all_goals
      intro x hx
      rcases List.mem_append.mp hx with hx | hx
    · exact Nat.lt_succ_of_lt (ih.below x hx)
    · rw [List.mem_map] at hx
      obtain ⟨j, _, rfl⟩ := hx
      exact Nat.lt_succ_self k
    · exact ih.ordered x hx
    · rw [List.mem_map] at hx
      obtain ⟨j, hj, rfl⟩ := hx
      exact hl j hj
    · exact ih.inRange x hx
    · rw [List.mem_map] at hx
      obtain ⟨j, hj, rfl⟩ := hx
      obtain ⟨c, hc, rfl⟩ := hjs j hj
      exact (mem_candidatesOf hc).1
    · exact ih.far x hx
    · rw [List.mem_map] at hx
      obtain ⟨j, hj, rfl⟩ := hx
      obtain ⟨c, hc, rfl⟩ := hjs j hj
      exact (mem_candidatesOf hc).2.2

theorem linksOk_buildEdges (nodes : List Vector3) (dMin : Int) (dMax : Nat) :
    LinksOk nodes dMin nodes.length (buildEdges nodes dMin dMax).links :=
  linksOk_upTo nodes dMin dMax nodes.length


/-! ## Lemmas on the selection functions and the scheduler -/

theorem selectNode_selected (st : Style) (n : Node) : (selectNode st n).selected = true := by
  unfold selectNode
  split_ifs with h
  · exact h
  · rfl

theorem deselectNode_selected (st : Style) (n : Node) :
    (deselectNode st n).selected = false := by
  unfold deselectNode
  split_ifs with h
  · simpa using h
  · rfl

theorem selectNode_autoLit (st : Style) (n : Node) : (selectNode st n).autoLit = n.autoLit := by
  unfold selectNode
  split_ifs <;> rfl

theorem deselectNode_autoLit (st : Style) (n : Node) :
    (deselectNode st n).autoLit = n.autoLit := by
  unfold deselectNode
  split_ifs <;> rfl

theorem selectNode_ok (st : Style) (n : Node) : NodeOk (selectNode st n) := by
  intro h
  rw [selectNode_selected] at h
  exact absurd h (by decide)

theorem deselectNode_ok (st : Style) {n : Node} (hn : NodeOk n) : NodeOk (deselectNode st n) := by
  unfold deselectNode
  split_ifs with h
  · exact hn
  · intro _
    exact ⟨rfl, rfl⟩

theorem toggleSelection_ok (st : Style) {n : Node} (hn : NodeOk n) :
    NodeOk (toggleSelection st n) := by
  unfold toggleSelection
  split_ifs
  · exact deselectNode_ok st hn
  · exact selectNode_ok st n

theorem withAutoLit_ok {n : Node} (b : Bool) (hn : NodeOk n) :
    NodeOk { n with autoLit := b } :=
  fun h => hn h

theorem nodesOk_set {nodes : List Node} {k : Nat} {m : Node}
    (h : ∀ n ∈ nodes, NodeOk n) (hm : NodeOk m) : ∀ n ∈ nodes.set k m, NodeOk n := by
  intro n hn
  rcases List.mem_or_eq_of_mem_set hn with h1 | h1
  · exact h n h1
  · rw [h1]; exact hm

theorem pickNeighbors_frame (rnd : Nat → ℚ) (duration : ℚ) (count : Nat) :
    ∀ (neigh : List Nat) (s : State),
      (pickNeighbors rnd duration count neigh s).nodes = s.nodes ∧
        (pickNeighbors rnd duration count neigh s).links = s.links ∧
        (pickNeighbors rnd duration count neigh s).autoActive = s.autoActive ∧
        (pickNeighbors rnd duration count neigh s).running = s.running := by
  induction count with
  | zero => intro neigh s; exact ⟨rfl, rfl, rfl, rfl⟩
  | succ c ih =>
    intro neigh s
    unfold pickNeighbors
    exact ih _ _

/-- The nodes after a call of `flashNodeRandomly`: unchanged when the call returns at
its guard, and otherwise the target node lit and given the selection visuals. -/
theorem flashNodeRandomly_nodes (st : Style) (cfg : AutoConfig) (rnd : Nat → ℚ) (s : State)
    (node : Option Nat) (duration : ℚ) (isClustered : Bool) :
    (flashNodeRandomly st cfg rnd s node duration isClustered).nodes = s.nodes ∨
      ∃ k n, node = some k ∧ s.nodes[k]? = some n ∧ n.autoLit = false ∧
        (flashNodeRandomly st cfg rnd s node duration isClustered).nodes =
          s.nodes.set k (selectNode st { n with autoLit := true }) := by
  cases node with
  | none => exact Or.inl rfl
  | some k =>
    cases hk : s.nodes[k]? with
    | none => left; simp only [flashNodeRandomly, hk]
    | some n =>
      by_cases hlit : n.autoLit = true
      · left; simp only [flashNodeRandomly, hk, hlit, if_true]
      · refine Or.inr ⟨k, n, rfl, hk, by simpa using hlit, ?_⟩
        simp only [flashNodeRandomly, hk, hlit]
        cases isClustered with
        | true => rfl
        | false =>
          simp only [Bool.false_eq_true, if_false]
          split_ifs
          · exact (pickNeighbors_frame rnd duration _ _ _).1
          · rfl

theorem flashNodeRandomly_ok (st : Style) (cfg : AutoConfig) (rnd : Nat → ℚ) {s : State}
    (node : Option Nat) (duration : ℚ) (isClustered : Bool) (h : NodesOk s) :
    NodesOk (flashNodeRandomly st cfg rnd s node duration isClustered) := by
  unfold NodesOk
  rcases flashNodeRandomly_nodes st cfg rnd s node duration isClustered with e | ⟨k, n, _, _, _, e⟩
  · rw [e]; exact h
  · rw [e]; exact nodesOk_set h (selectNode_ok st _)

theorem flashLinkRandomly_nodes (s : State) (link : Option Nat) (duration now : ℚ) :
    (flashLinkRandomly s link duration now).nodes = s.nodes := by
  cases link with
  | none => rfl
  | some k =>
    cases hk : s.links[k]? with
    | none => simp only [flashLinkRandomly, hk]
    | some l =>
      simp only [flashLinkRandomly, hk]
      split_ifs <;> rfl

theorem animatePulse_nodes (sinPi : ℚ → ℚ) (s : State) (k : Nat) (duration start : ℚ)
    (baseEmissive : Nat) (baseIntensity : ℚ) (targetScale : Scale3) (now : ℚ) :
    (animatePulse sinPi s k duration start baseEmissive baseIntensity targetScale now).nodes =
      s.nodes := by
  cases hk : s.links[k]? with
  | none => simp only [animatePulse, hk]
  | some l =>
    simp only [animatePulse, hk]
    split_ifs <;> rfl

theorem expire_ok (st : Style) {s : State} (k : Nat) (wasSelected : Bool) (h : NodesOk s) :
    NodesOk (expire st s k wasSelected) := by
  cases hk : s.nodes[k]? with
  | none => simp only [expire, hk]; exact h
  | some n =>
    have hn : NodeOk n := h n (List.getElem?_mem hk)
    simp only [expire, hk]
    refine nodesOk_set h ?_
    cases wasSelected with
    | true => exact withAutoLit_ok false hn
    | false => exact deselectNode_ok st (withAutoLit_ok false hn)

theorem burstLoop_ok (st : Style) (cfg : AutoConfig) (rnd : Nat → ℚ) (now : ℚ) (count : Nat) :
    ∀ s : State, NodesOk s → NodesOk (burstLoop st cfg rnd now count s) := by
  induction count with
  | zero => intro s h; exact h
  | succ c ih =>
    intro s h
    simp only [burstLoop]
    split_ifs
    · exact h
    · exact ih _ h
    · exact ih _ (flashNodeRandomly_ok st cfg rnd _ _ _ h)
    · exact ih _ h
    · refine ih _ ?_
      unfold NodesOk
      rw [flashLinkRandomly_nodes]
      exact h
    · exact ih _ h

theorem step_ok (st : Style) (cfg : AutoConfig) (rnd : Nat → ℚ) (sinPi : ℚ → ℚ) {s : State}
    (e : Event) (h : NodesOk s) : NodesOk (step st cfg rnd sinPi s e) := by
  cases e with
  | tick now =>
    simp only [step]
    split_ifs
    · exact burstLoop_ok st cfg rnd now _ _ h
    · exact h
  | timer idx now =>
    cases ht : s.timers[idx]? with
    | none => simp only [step, ht]; exact h
    | some t =>
      simp only [step, ht]
      have h1 : NodesOk { s with timers := s.timers.eraseIdx idx } := h
      cases t with
      | expiry k w d => exact expire_ok st k w h1
      | cascade nb nd dl => exact flashNodeRandomly_ok st cfg rnd nb nd true h1
      | pulse k d s0 be bi ts =>
        unfold NodesOk fire
        rw [animatePulse_nodes]
        exact h
  | click k =>
    cases hk : s.nodes[k]? with
    | none => simp only [step, pointerDown, hk]; exact h
    | some n =>
      simp only [step, pointerDown, hk]
      exact nodesOk_set h (toggleSelection_ok st (h n (List.getElem?_mem hk)))
  | keyC =>
    intro n hn
    simp only [step, clearAll] at hn
    rw [List.mem_map] at hn
    obtain ⟨m, hm, rfl⟩ := hn
    exact deselectNode_ok st (h m hm)
  | stop => exact h

theorem initialState_ok (g : Graph) (radius intensity linkScale : Nat → ℚ) :
    NodesOk (initialState g radius intensity linkScale) := by
  intro n hn
  unfold initialState at hn
  rw [List.mem_map] at hn
  obtain ⟨i, _, rfl⟩ := hn
  intro _
  exact ⟨rfl, rfl⟩

theorem reachable_ok {st : Style} {cfg : AutoConfig} {rnd : Nat → ℚ} {sinPi : ℚ → ℚ}
    {s0 s : State} (h0 : NodesOk s0) (h : Reachable st cfg rnd sinPi s0 s) : NodesOk s := by
  induction h with
  | init => exact h0
  | next e _ ih => exact step_ok st cfg rnd sinPi e ih

theorem reachable_run (st : Style) (cfg : AutoConfig) (rnd : Nat → ℚ) (sinPi : ℚ → ℚ)
    (s0 : State) (events : List Event) :
    Reachable st cfg rnd sinPi s0 (run st cfg rnd sinPi s0 events) := by
  induction events using List.reverseRecOn with
  | nil => exact Reachable.init
  | append_singleton es e ih =>
    unfold run at ih ⊢
    rw [List.foldl_append]
    exact Reachable.next e ih

/-! ## The edge-building loop: claims -/

/-- C1, at a failing input: ten nodes 5 apart on a line, `dMin = 5`, `dMax = 2`.  The loop
ends with `degrees = [2, 3, 4, 4, 4, 4, 4, 4, 3, 2]`, so eight of the ten nodes are above
the cap 2, and node 2 has the four incident links 0-2, 1-2, 2-3 and 2-4. -/
theorem degree_cap_exceeded :
    (buildEdges lineNodes 5 2).degrees = [2, 3, 4, 4, 4, 4, 4, 4, 3, 2] ∧
      ((buildEdges lineNodes 5 2).links.filter fun e => e.1 = 2 ∨ e.2 = 2) =
        [(0, 2), (1, 2), (2, 3), (2, 4)] := by
  decide

/-- C5: the links made by the edge-building loop contain no link from a node to itself,
and no unordered pair of nodes twice. -/
theorem links_no_self_no_duplicate (nodes : List Vector3) (dMin : Int) (dMax : Nat) :
    (∀ e ∈ (buildEdges nodes dMin dMax).links, e.1 ≠ e.2) ∧
      ((buildEdges nodes dMin dMax).links.map fun e => s(e.1, e.2)).Nodup := by
  have h := linksOk_buildEdges nodes dMin dMax
  refine ⟨fun e he => Nat.ne_of_lt (h.ordered e he), ?_⟩
  refine h.nodup.map_on ?_
  intro a ha b hb hab
  have h1 := h.ordered a ha
  have h2 := h.ordered b hb
  rcases Sym2.eq_iff.mp hab with ⟨e1, e2⟩ | ⟨e1, e2⟩
  · exact Prod.ext e1 e2
  · omega

/-- Witness of C5 on three nodes: the two links 0-1 and 1-2 are no loops and differ as
unordered pairs. -/
theorem links_no_self_no_duplicate_witness :
    (∀ e ∈ (buildEdges threeNodes 1 1).links, e.1 ≠ e.2) ∧
      ((buildEdges threeNodes 1 1).links.map fun e => s(e.1, e.2)).Nodup :=
  links_no_self_no_duplicate threeNodes 1 1

/-- C7, at a failing input: ten nodes 5 apart on a line, `dMin = 5`, `dMax = 2`.  The loop
makes 17 links, more than `N * dMax / 2 = 10`. -/
theorem edge_count_bound_exceeded :
    (buildEdges lineNodes 5 2).links.length = 17 ∧ lineNodes.length * 2 / 2 = 10 := by
  decide

/-! ## Selection and auto-lighting: claims -/

/-- C8: on a node that is not auto-lit, `toggleSelection` flips the `selected` flag, so
two calls in succession restore it; an unselected node is selected after one call and
unselected after two. -/
theorem toggleSelection_twice (st : Style) (node : Node) (_h : node.autoLit = false) :
    (toggleSelection st (toggleSelection st node)).selected = node.selected ∧
      (node.selected = false →
        (toggleSelection st node).selected = true ∧
          (toggleSelection st (toggleSelection st node)).selected = false) := by
  have flip : ∀ n : Node, (toggleSelection st n).selected = !n.selected := by
    intro n
    unfold toggleSelection
    split_ifs with hs
    · rw [deselectNode_selected, hs]; rfl
    · rw [selectNode_selected]; simpa using hs
  refine ⟨by rw [flip, flip, Bool.not_not], fun h0 => ⟨by rw [flip, h0]; rfl, ?_⟩⟩
  rw [flip, flip, h0]; rfl

/-- Witness of C8 on a freshly created node. -/
theorem toggleSelection_twice_witness :
    (toggleSelection refStyle (toggleSelection refStyle (newNode (1 / 5) 1 []))).selected =
        (newNode (1 / 5) 1 []).selected ∧
      ((newNode (1 / 5) 1 []).selected = false →
        (toggleSelection refStyle (newNode (1 / 5) 1 [])).selected = true ∧
          (toggleSelection refStyle
            (toggleSelection refStyle (newNode (1 / 5) 1 []))).selected = false) :=
  toggleSelection_twice refStyle (newNode (1 / 5) 1 []) rfl

/-- C4: when `flashNodeRandomly` starts a flash on a node that is selected, the expiry
callback it arms carries `wasSelected = true`; whenever that callback runs it changes,
in the whole state, only the node's `autoLit` flag (set to false) and the registry (the
node removed), so the node's `selected` flag, selection light and glow sprite are as
they were just before the callback. -/
theorem expiry_keeps_selected_node (st : Style) (cfg : AutoConfig) (rnd : Nat → ℚ)
    (sinPi : ℚ → ℚ) (s : State) (k : Nat) (n : Node) (duration : ℚ) (isClustered : Bool)
    (hn : s.nodes[k]? = some n) (hidle : n.autoLit = false) (hsel : n.selected = true) :
    (∃ earlier, (flashNodeRandomly st cfg rnd s (some k) duration isClustered).timers =
        earlier ++ [Timer.expiry k true duration]) ∧
      ∀ (t : State) (m : Node) (now : ℚ), t.nodes[k]? = some m →
        fire st cfg rnd sinPi t now (Timer.expiry k true duration) =
            { t with
              nodes := t.nodes.set k { m with autoLit := false }
              autoActive := setDelete t.autoActive (Entity.node k) } ∧
          ∃ m', (fire st cfg rnd sinPi t now (Timer.expiry k true duration)).nodes[k]? = some m' ∧
            m'.selected = m.selected ∧ m'.selectionLight = m.selectionLight ∧
              m'.glowSprite = m.glowSprite ∧ m'.autoLit = false := by
  constructor
  · simp only [flashNodeRandomly, hn, hidle, hsel]
    exact ⟨_, rfl⟩
  · intro t m now hm
    have e : fire st cfg rnd sinPi t now (Timer.expiry k true duration) =
        { t with
          nodes := t.nodes.set k { m with autoLit := false }
          autoActive := setDelete t.autoActive (Entity.node k) } := by
      simp only [fire, expire, hm]
      rfl
    refine ⟨e, { m with autoLit := false }, ?_, rfl, rfl, rfl, rfl⟩
    rw [e]
    obtain ⟨hlt, _⟩ := List.getElem?_eq_some.mp hm
    exact List.getElem?_set_self hlt

unseal Rat.add Rat.mul Rat.inv Rat.sub in
/-- Witness of C4: in the two-node scene node 1 is selected by a click, then a burst
starts a flash on it; the armed callback is `expiry 1 true 20`, and running it when
the flash is over leaves node 1 selected, lit by its selection light, and no longer
auto-lit. -/
theorem expiry_keeps_selected_node_witness :
    (∃ earlier,
        (flashNodeRandomly refStyle capOne drawsB
          (run refStyle capOne drawsB flatSin pairScene [Event.click 1]) (some 1) 20 false).timers =
          earlier ++ [Timer.expiry 1 true 20]) ∧
      ∃ m', (fire refStyle capOne drawsB flatSin
          (flashNodeRandomly refStyle capOne drawsB
            (run refStyle capOne drawsB flatSin pairScene [Event.click 1]) (some 1) 20 false)
          20 (Timer.expiry 1 true 20)).nodes[1]? = some m' ∧
        m'.selected = true ∧ m'.selectionLight = some ⟨0xf8fbff, 26 / 10, 14, 2⟩ ∧
          m'.autoLit = false :=
  have key := expiry_keeps_selected_node refStyle capOne drawsB flatSin
    (run refStyle capOne drawsB flatSin pairScene [Event.click 1]) 1
    (selectNode refStyle (newNode (1 / 5) 1 [0])) 20 false (by decide) (by decide) (by decide)
  ⟨key.1, by
    obtain ⟨m', h1, h2, h3, _, h5⟩ :=
      (key.2 (flashNodeRandomly refStyle capOne drawsB
        (run refStyle capOne drawsB flatSin pairScene [Event.click 1]) (some 1) 20 false)
        { selectNode refStyle (newNode (1 / 5) 1 [0]) with autoLit := true } 20 (by decide)).2
    exact ⟨m', h1, h2.trans (by decide), h3.trans (by decide), h5⟩⟩

/-- C10: a call `flashNodeRandomly(node, duration, true)` arms no timer but its own
expiry (none at all when it returns at its guard) and makes no random draw, so it
schedules no neighbor flash; the callback of a cascade timer is such a call. -/
theorem cascade_flash_schedules_no_cascade (st : Style) (cfg : AutoConfig) (rnd : Nat → ℚ)
    (sinPi : ℚ → ℚ) (s : State) (node : Option Nat) (duration delay now : ℚ) :
    ((flashNodeRandomly st cfg rnd s node duration true).timers = s.timers ∨
        ∃ k w, node = some k ∧
          (flashNodeRandomly st cfg rnd s node duration true).timers =
            s.timers ++ [Timer.expiry k w duration]) ∧
      (flashNodeRandomly st cfg rnd s node duration true).draws = s.draws ∧
      fire st cfg rnd sinPi s now (Timer.cascade node duration delay) =
        flashNodeRandomly st cfg rnd s node duration true := by
  refine ⟨?_, ?_, rfl⟩
  · cases node with
    | none => exact Or.inl rfl
    | some k =>
      cases hk : s.nodes[k]? with
      | none => left; simp only [flashNodeRandomly, hk]
      | some n =>
        by_cases hlit : n.autoLit = true
        · left; simp only [flashNodeRandomly, hk, hlit, if_true]
        · right
          refine ⟨k, n.selected, rfl, ?_⟩
          simp only [flashNodeRandomly, hk, hlit]
          rfl
  · cases node with
    | none => rfl
    | some k =>
      cases hk : s.nodes[k]? with
      | none => simp only [flashNodeRandomly, hk]
      | some n =>
        by_cases hlit : n.autoLit = true
        · simp only [flashNodeRandomly, hk, hlit, if_true]
        · simp only [flashNodeRandomly, hk, hlit]
          rfl

/-- C9: in every state the page can reach, the handler of the key `c` leaves no node
selected, and every node without selection light and without glow sprite. -/
theorem clearAll_deselects_every_node (st : Style) (cfg : AutoConfig) (rnd : Nat → ℚ)
    (sinPi : ℚ → ℚ) (g : Graph) (radius intensity linkScale : Nat → ℚ) (s : State)
    (h : Reachable st cfg rnd sinPi (initialState g radius intensity linkScale) s) :
    ∀ n ∈ (step st cfg rnd sinPi s Event.keyC).nodes,
      n.selected = false ∧ n.selectionLight = none ∧ n.glowSprite = none := by
  intro n hn
  have hok : NodesOk (step st cfg rnd sinPi s Event.keyC) :=
    step_ok st cfg rnd sinPi Event.keyC (reachable_ok (initialState_ok g radius intensity linkScale) h)
  have hsel : n.selected = false := by
    simp only [step, clearAll] at hn
    rw [List.mem_map] at hn
    obtain ⟨m, _, rfl⟩ := hn
    exact deselectNode_selected st m
  exact ⟨hsel, hok n hn hsel⟩

unseal Rat.add Rat.mul Rat.inv Rat.sub in
/-- Witness of C9: in the two-node scene a burst lights node 0 and a click selects
node 1, so both nodes have `selected = true`; after the key `c` neither is selected and
neither has a selection light or glow sprite. -/
theorem clearAll_deselects_every_node_witness :
    (run refStyle capOne drawsA flatSin pairScene [Event.tick 0, Event.click 1]).nodes.map
        Node.selected = [true, true] ∧
      ∀ n ∈ (step refStyle capOne drawsA flatSin
          (run refStyle capOne drawsA flatSin pairScene [Event.tick 0, Event.click 1])
          Event.keyC).nodes,
        n.selected = false ∧ n.selectionLight = none ∧ n.glowSprite = none :=
  ⟨by decide,
    clearAll_deselects_every_node refStyle capOne drawsA flatSin _ _ _ _ _
      (reachable_run refStyle capOne drawsA flatSin pairScene [Event.tick 0, Event.click 1])⟩

unseal Rat.add Rat.mul Rat.inv Rat.sub in
/-- C2, at a failing input: two linked nodes, `MAX_SIMULTANEOUS = 1`.  A burst lights
node 0 (flash of 29 ms) and, by the cluster rule, arms a cascade on node 1 with delay
20 ms; the registry then holds one entity.  When the cascade callback runs, node 1 is
added: the registry holds two entities, above the cap 1. -/
theorem registry_exceeds_cap :
    (run refStyle capOne drawsA flatSin pairScene [Event.tick 0]).autoActive =
        [Entity.node 0] ∧
      (run refStyle capOne drawsA flatSin pairScene [Event.tick 0]).timers =
        [Timer.cascade (some 1) 220 20, Timer.expiry 0 false 29] ∧
      (run refStyle capOne drawsA flatSin pairScene
          [Event.tick 0, Event.timer 0 20]).autoActive = [Entity.node 0, Entity.node 1] ∧
      capOne.maxSimultaneous = 1 := by
  decide

unseal Rat.add Rat.mul Rat.inv Rat.sub in
/-- C3, at a failing input, with the source's constants: after one burst and a call of
`stop`, the flashes of nodes 0 and 1 end at 20 ms, and at 30 ms a cascade flash of
220 ms starts on node 1, which is then unselected (`wasSelected = false`).  During that
flash the user clicks node 1 twice (the first click deselects it, the second selects
it), so it is selected after the user's last toggle; the expiry callback then
deselects it and removes its selection light. -/
theorem expiry_deselects_user_selection :
    (run refStyle refConfig drawsC flatSin pairScene
        [Event.tick 0, Event.stop, Event.timer 1 20, Event.timer 1 20, Event.timer 0 30]).timers =
        [Timer.expiry 1 false 220] ∧
      (run refStyle refConfig drawsC flatSin pairScene
        [Event.tick 0, Event.stop, Event.timer 1 20, Event.timer 1 20, Event.timer 0 30,
          Event.click 1, Event.click 1]).nodes.map Node.selected = [false, true] ∧
      (run refStyle refConfig drawsC flatSin pairScene
        [Event.tick 0, Event.stop, Event.timer 1 20, Event.timer 1 20, Event.timer 0 30,
          Event.click 1, Event.click 1, Event.timer 0 250]).nodes.map
          (fun n => (n.selected, n.selectionLight.isSome)) = [(false, false), (false, false)] := by
  decide

/-! ## Degrees in the edge-building loop -/

theorem bump_length (l : List Nat) (i : Nat) : (bump l i).length = l.length := by
  induction l generalizing i with
  | nil => rfl
  | cons d ds ih =>
    cases i with
    | zero => rfl
    | succ i => simp [bump, ih]

theorem bump_getD (l : List Nat) (i k : Nat) :
    (bump l i).getD k 0 = l.getD k 0 + if k = i ∧ i < l.length then 1 else 0 := by
  induction l generalizing i k with
  | nil => simp [bump]
  | cons d ds ih =>
    cases i with
    | zero =>
      cases k with
      | zero => simp [bump]
      | succ k => simp [bump]
    | succ i =>
      cases k with
      | zero => simp [bump]
      | succ k => simpa [bump] using ih i k

theorem addLink_getD (g : Graph) {i j : Nat} (k : Nat) (hi : i < g.degrees.length)
    (hj : j < g.degrees.length) :
    (g.addLink i j).degrees.getD k 0 =
      g.degrees.getD k 0 + (if k = i then 1 else 0) + (if k = j then 1 else 0) := by
  simp only [Graph.addLink, bump_getD, bump_length, hi, hj, and_true]

theorem addLink_inCount (g : Graph) (i j k : Nat) :
    inCount (g.addLink i j) k = inCount g k + if k = j then 1 else 0 := by
  simp only [inCount, Graph.addLink, List.filter_append, List.length_append]
  by_cases h : j = k
  · simp [h]
  · simp [h, Ne.symm h]

theorem addLink_outCount (g : Graph) (i j k : Nat) :
    outCount (g.addLink i j) k = outCount g k + if k = i then 1 else 0 := by
  simp only [outCount, Graph.addLink, List.filter_append, List.length_append]
  by_cases h : i = k
  · simp [h]
  · simp [h, Ne.symm h]

theorem acceptLoop_loopOk (dMax n i : Nat) (hi : i < n) (cs : List Candidate)
    (hcs : ∀ c ∈ cs, c.j < n) :
    ∀ (added : Nat) (g : Graph), LoopOk dMax n i added g →
      ∃ added', LoopOk dMax n i added' (acceptLoop dMax i cs added g) := by
  induction cs with
  | nil => intro added g h; exact ⟨added, h⟩
  | cons c cs ih =>
    intro added g h
    have hcs' : ∀ c ∈ cs, c.j < n := fun c hc => hcs c (List.mem_cons_of_mem _ hc)
    have hcj : c.j < n := hcs c (List.mem_cons_self _ _)
    unfold acceptLoop
    split_ifs with h1 h2 h3
    · exact ⟨added, h⟩
    · exact ih hcs' added g h
    · refine ih hcs' (added + 1) (g.addLink i c.j) ?_
      have hout : outCount g c.j = 0 := h.outL c.j h3
      have hin : inCount g c.j < dMax := by
        have := h.sum c.j
        omega
      refine ⟨?_, ?_, ?_, ?_, ?_, ?_⟩
      · simp [Graph.addLink, bump_length, h.len]
      · intro k
        rw [addLink_getD g k (h.len ▸ hi) (h.len ▸ hcj), addLink_inCount, addLink_outCount,
          h.sum k]
        omega
      · intro k
        rw [addLink_inCount]
        split_ifs with hk
        · subst hk; omega
        · have := h.inB k; omega
      · intro k
        rw [addLink_outCount]
        split_ifs with hk
        · subst hk; have := h.outI; omega
        · have := h.outB k; omega
      · rw [addLink_outCount, h.outI]; simp
      · intro k hk
        rw [addLink_outCount, h.outL k hk]
        simp [Nat.ne_of_gt hk]
    · exact ih hcs' added g h

theorem PrefixOk.toLoopOk {dMax n m : Nat} {g : Graph} (h : PrefixOk dMax n m g) :
    LoopOk dMax n m 0 g :=
  ⟨h.len, h.sum, h.inB, h.outB, h.outL m (le_refl m), fun k hk => h.outL k (Nat.le_of_lt hk)⟩

theorem LoopOk.toPrefixOk {dMax n i added : Nat} {g : Graph} (h : LoopOk dMax n i added g) :
    PrefixOk dMax n (i + 1) g :=
  ⟨h.len, h.sum, h.inB, h.outB, fun k hk => h.outL k hk⟩

theorem graphBefore_succ (nodes : List Vector3) (dMin : Int) (dMax m : Nat) :
    graphBefore nodes dMin dMax (m + 1) =
      processNode nodes dMin dMax (graphBefore nodes dMin dMax m) m :=
  foldl_range_succ nodes dMin dMax m (emptyGraph nodes.length)

theorem sorted_candidates_inRange (nodes : List Vector3) (dMin : Int) (i : Nat) :
    ∀ c ∈ sortCandidates (candidatesOf nodes dMin i), c.j < nodes.length :=
  fun _ hc => (mem_candidatesOf ((sortCandidates_perm _).subset hc)).1

theorem graphBefore_ok (nodes : List Vector3) (dMin : Int) (dMax : Nat) :
    ∀ m, m ≤ nodes.length → PrefixOk dMax nodes.length m (graphBefore nodes dMin dMax m) := by
  intro m
  induction m with
  | zero =>
    intro _
    refine ⟨?_, ?_, ?_, ?_, ?_⟩ <;> simp [graphBefore, emptyGraph, inCount, outCount]
  | succ m ih =>
    intro hm
    rw [graphBefore_succ]
    obtain ⟨added, h⟩ := acceptLoop_loopOk dMax nodes.length m hm _
      (sorted_candidates_inRange nodes dMin m) 0 _ (ih (Nat.le_of_succ_le hm)).toLoopOk
    exact h.toPrefixOk

theorem incident_eq_in_add_out (links : List (Nat × Nat)) (h : ∀ e ∈ links, e.1 < e.2)
    (k : Nat) :
    (links.filter fun e => e.1 = k ∨ e.2 = k).length =
      (links.filter fun e => e.2 = k).length + (links.filter fun e => e.1 = k).length := by
  induction links with
  | nil => rfl
  | cons e es ih =>
    have he := h e (List.mem_cons_self _ _)
    have ih' := ih fun x hx => h x (List.mem_cons_of_mem _ hx)
    by_cases h1 : e.1 = k <;> by_cases h2 : e.2 = k
    · omega
    · simp [List.filter_cons, h1, h2] at ih' ⊢; omega
    · simp [List.filter_cons, h1, h2] at ih' ⊢; omega
    · simp [List.filter_cons, h1, h2] at ih' ⊢; omega

/-- C19: after the edge-building loop every entry of `degrees` is the number of links
incident to the node, and it is at most `2 * dMax`: the node received at most `dMax`
links from lower-indexed nodes and created at most `dMax` links itself. -/
theorem degree_at_most_twice_cap (nodes : List Vector3) (dMin : Int) (dMax : Nat) (k : Nat) :
    (buildEdges nodes dMin dMax).degrees.getD k 0 ≤ 2 * dMax ∧
      (buildEdges nodes dMin dMax).degrees.getD k 0 =
        incidentCount (buildEdges nodes dMin dMax) k ∧
      inCount (buildEdges nodes dMin dMax) k ≤ dMax ∧
      outCount (buildEdges nodes dMin dMax) k ≤ dMax := by
  have h : PrefixOk dMax nodes.length nodes.length (buildEdges nodes dMin dMax) :=
    graphBefore_ok nodes dMin dMax nodes.length (le_refl _)
  have hs := h.sum k
  have hi := h.inB k
  have ho := h.outB k
  refine ⟨by omega, ?_, hi, ho⟩
  rw [hs]
  exact (incident_eq_in_add_out _ (linksOk_buildEdges nodes dMin dMax).ordered k).symm

theorem mem_candidatesOf_d {nodes : List Vector3} {dMin : Int} {i : Nat} {c : Candidate}
    (h : c ∈ candidatesOf nodes dMin i) :
    c.d = (positionOf nodes i).distanceToSquared (positionOf nodes c.j) := by
  unfold candidatesOf at h
  rw [List.mem_map] at h
  obtain ⟨j, _, rfl⟩ := h
  rfl

theorem candidate_of_far {nodes : List Vector3} {dMin : Int} {i k : Nat}
    (hk : k < nodes.length) (hne : i ≠ k)
    (hfar : atLeastMinDist dMin
      ((positionOf nodes i).distanceToSquared (positionOf nodes k)) = true) :
    ∃ c ∈ candidatesOf nodes dMin i, c.j = k := by
  refine ⟨⟨k, (positionOf nodes i).distanceToSquared (positionOf nodes k)⟩, ?_, rfl⟩
  unfold candidatesOf
  rw [List.mem_map]
  refine ⟨k, ?_, rfl⟩
  rw [List.mem_filter, List.mem_range]
  simp [hk, hne, hfar]

theorem sortCandidates_sorted (cs : List Candidate) :
    (sortCandidates cs).Pairwise fun a b => a.d ≤ b.d := by
  haveI : IsTotal Candidate (fun a b => a.d ≤ b.d) := ⟨fun a b => le_total a.d b.d⟩
  haveI : IsTrans Candidate (fun a b => a.d ≤ b.d) := ⟨fun _ _ _ h1 h2 => le_trans h1 h2⟩
  exact List.sorted_insertionSort (fun a b => a.d ≤ b.d) cs

theorem takeWhile_split (k : Nat) :
    ∀ l : List Candidate, (∃ c ∈ l, c.j = k) →
      ∃ c post, c.j = k ∧ l = (l.takeWhile fun c => c.j != k) ++ c :: post := by
  intro l
  induction l with
  | nil => rintro ⟨c, hc, _⟩; exact absurd hc (List.not_mem_nil _)
  | cons a l ih =>
    rintro ⟨c, hc, hck⟩
    by_cases ha : a.j = k
    · exact ⟨a, l, ha, by simp [List.takeWhile_cons, ha]⟩
    · have hc' : c ∈ l := by
        rcases List.mem_cons.mp hc with rfl | h
        · exact absurd hck ha
        · exact h
      obtain ⟨c', post, h1, h2⟩ := ih ⟨c, hc', hck⟩
      refine ⟨c', post, h1, ?_⟩
      simp only [List.takeWhile_cons, bne_iff_ne, ne_eq, ha, not_false_eq_true, decide_True,
        if_true, List.cons_append]
      rw [← h2]

theorem acceptLoop_links_mono (dMax i : Nat) (cs : List Candidate) (added : Nat) (g : Graph)
    {e : Nat × Nat} (he : e ∈ g.links) : e ∈ (acceptLoop dMax i cs added g).links := by
  obtain ⟨js, h, _, _⟩ := acceptLoop_links dMax i cs added g
  rw [h]
  exact List.mem_append_left _ he

/-- If the loop of node `i` makes the link `i`-`j` from a candidate that comes after the
candidate `ck`, and makes no link to `ck`, a node above `i`, then `ck` was skipped for
its degree. -/
theorem acceptLoop_skipped (dMax i : Nat) (ck : Candidate) (post : List Candidate) (j : Nat)
    (hj : j ∈ post.map fun c => c.j) (hik : i < ck.j) (pre : List Candidate) :
    ∀ (added : Nat) (g : Graph),
      ((pre ++ ck :: post).map fun c => c.j).Nodup →
      (i, j) ∉ g.links →
      (i, j) ∈ (acceptLoop dMax i (pre ++ ck :: post) added g).links →
      (i, ck.j) ∉ (acceptLoop dMax i (pre ++ ck :: post) added g).links →
      dMax ≤ (acceptLoop dMax i pre added g).degrees.getD ck.j 0 := by
  induction pre with
  | nil =>
    intro added g _ hnew hin hno
    simp only [List.nil_append] at hin hno
    unfold acceptLoop at hin hno
    by_cases h1 : added ≥ dMax
    · simp only [h1, if_true] at hin
      exact absurd hin hnew
    · by_cases h2 : g.degrees.getD ck.j 0 ≥ dMax
      · simpa [acceptLoop] using h2
      · simp only [h1, h2, hik, if_true, if_false] at hno
        refine absurd (acceptLoop_links_mono dMax i post (added + 1) _ ?_) hno
        simp [Graph.addLink]
  | cons c pre ih =>
    intro added g hnd hnew hin hno
    simp only [List.cons_append] at hin hno hnd
    have hnd' : ((pre ++ ck :: post).map fun c => c.j).Nodup := (List.nodup_cons.mp hnd).2
    have hcj : c.j ≠ j := by
      intro h
      apply (List.nodup_cons.mp hnd).1
      show c.j ∈ List.map (fun c => c.j) (pre ++ ck :: post)
      rw [h, List.map_append, List.map_cons]
      exact List.mem_append_right _ (List.mem_cons_of_mem _ hj)
    unfold acceptLoop at hin hno ⊢
    by_cases h1 : added ≥ dMax
    · simp only [h1, if_true] at hin
      exact absurd hin hnew
    · by_cases h2 : g.degrees.getD c.j 0 ≥ dMax
      · simp only [h1, h2, if_true, if_false] at hin hno ⊢
        exact ih added g hnd' hnew hin hno
      · by_cases h3 : i < c.j
        · simp only [h1, h2, h3, if_true, if_false] at hin hno ⊢
          refine ih (added + 1) _ hnd' ?_ hin hno
          simp only [Graph.addLink, List.mem_append, List.mem_singleton, Prod.mk.injEq, not_or,
            not_and]
          exact ⟨hnew, fun _ h => hcj h.symm⟩
        · simp only [h1, h2, h3, if_true, if_false] at hin hno ⊢
          exact ih added g hnd' hnew hin hno

theorem mem_links_after (nodes : List Vector3) (dMin : Int) (dMax : Nat) (i j : Nat) :
    ∀ m, i < m →
      ((i, j) ∈ (graphBefore nodes dMin dMax m).links ↔
        (i, j) ∈ (graphBefore nodes dMin dMax (i + 1)).links) := by
  intro m hm
  induction m, hm using Nat.le_induction with
  | base => exact Iff.rfl
  | succ m hm ih =>
    rw [← ih, graphBefore_succ]
    unfold processNode
    obtain ⟨js, e, _, _⟩ :=
      acceptLoop_links dMax m (sortCandidates (candidatesOf nodes dMin m)) 0
        (graphBefore nodes dMin dMax m)
    rw [e, List.mem_append, List.mem_map]
    constructor
    · rintro (h | ⟨x, _, hx⟩)
      · exact h
      · have : m = i := (Prod.mk.inj hx).1
        omega
    · exact Or.inl

theorem not_mem_links_before (nodes : List Vector3) (dMin : Int) (dMax : Nat) (i j : Nat) :
    (i, j) ∉ (graphBefore nodes dMin dMax i).links := fun h =>
  lt_irrefl i ((linksOk_upTo nodes dMin dMax i).below (i, j) h)

theorem distanceToSquared_nonneg (a b : Vector3) : 0 ≤ a.distanceToSquared b := by
  unfold Vector3.distanceToSquared
  nlinarith [mul_self_nonneg (a.x - b.x), mul_self_nonneg (a.y - b.y),
    mul_self_nonneg (a.z - b.z)]

/-- Comparing two Euclidean distances is comparing their squares. -/
theorem sqrt_dist_lt_iff (a b c d : Vector3) :
    Real.sqrt ((a.distanceToSquared b : Int) : ℝ) < Real.sqrt ((c.distanceToSquared d : Int) : ℝ) ↔
      a.distanceToSquared b < c.distanceToSquared d := by
  rw [Real.sqrt_lt_sqrt_iff (by exact_mod_cast distanceToSquared_nonneg a b)]
  exact Int.cast_lt

theorem pickNeighbors_timers (rnd : Nat → ℚ) (duration : ℚ) (count : Nat) :
    ∀ (neigh : List Nat) (s : State), ∃ cascades : List Timer,
      (pickNeighbors rnd duration count neigh s).timers = s.timers ++ cascades ∧
        cascades.length = count ∧ ∀ t ∈ cascades, IsCascadeOf rnd duration t := by
  induction count with
  | zero => intro neigh s; exact ⟨[], by simp [pickNeighbors], rfl, by simp⟩
  | succ c ih =>
    intro neigh s
    unfold pickNeighbors
    obtain ⟨cs, h1, h2, h3⟩ := ih (neigh.eraseIdx ⌊rnd s.draws * (neigh.length : ℚ)⌋₊)
      { s with
        draws := s.draws + 3
        timers := s.timers ++
          [Timer.cascade neigh[⌊rnd s.draws * (neigh.length : ℚ)⌋₊]?
            (max 220 (duration * (35 / 100 + rnd (s.draws + 1) * (6 / 10))))
            (20 + rnd (s.draws + 2) * 90)] }
    refine ⟨Timer.cascade neigh[⌊rnd s.draws * (neigh.length : ℚ)⌋₊]?
        (max 220 (duration * (35 / 100 + rnd (s.draws + 1) * (6 / 10))))
        (20 + rnd (s.draws + 2) * 90) :: cs, ?_, by simp [h2], ?_⟩
    · simp only [h1, List.append_assoc, List.singleton_append]
    · intro t ht
      rcases List.mem_cons.mp ht with rfl | ht
      · exact ⟨_, s.draws + 1, s.draws + 2, rfl⟩
      · exact h3 t ht

theorem selectNode_neighbors (st : Style) (n : Node) :
    (selectNode st n).neighbors = n.neighbors := by
  unfold selectNode
  split_ifs <;> rfl

/-- The effect of `flashNodeRandomly`: nothing at all when it returns at its guard;
otherwise the target node is lit and given the selection visuals, it joins the registry,
and the timers armed are the cascade callbacks followed by the expiry callback. -/
theorem flashNodeRandomly_effect (st : Style) (cfg : AutoConfig) (rnd : Nat → ℚ) (s : State)
    (node : Option Nat) (duration : ℚ) (isClustered : Bool) :
    flashNodeRandomly st cfg rnd s node duration isClustered = s ∨
      ∃ k n cascades, node = some k ∧ s.nodes[k]? = some n ∧ n.autoLit = false ∧
        (flashNodeRandomly st cfg rnd s node duration isClustered).nodes =
          s.nodes.set k (selectNode st { n with autoLit := true }) ∧
        (flashNodeRandomly st cfg rnd s node duration isClustered).links = s.links ∧
        (flashNodeRandomly st cfg rnd s node duration isClustered).autoActive =
          setAdd s.autoActive (Entity.node k) ∧
        (flashNodeRandomly st cfg rnd s node duration isClustered).running = s.running ∧
        (flashNodeRandomly st cfg rnd s node duration isClustered).timers =
          s.timers ++ cascades ++ [Timer.expiry k n.selected duration] ∧
        (∀ t ∈ cascades, IsCascadeOf rnd duration t) ∧
        (isClustered = true → cascades = []) := by
  cases node with
  | none => exact Or.inl rfl
  | some k =>
    cases hk : s.nodes[k]? with
    | none => left; simp only [flashNodeRandomly, hk]
    | some n =>
      by_cases hlit : n.autoLit = true
      · left; simp only [flashNodeRandomly, hk, hlit, if_true]
      · right
        simp only [flashNodeRandomly, hk, hlit]
        cases isClustered with
        | true =>
          exact ⟨k, n, [], rfl, hk, by simpa using hlit, rfl, rfl, rfl, rfl, by simp, by simp,
            fun _ => rfl⟩
        | false =>
          simp only [Bool.false_eq_true, if_false]
          split_ifs with hc
          · obtain ⟨cs, h1, _, h3⟩ := pickNeighbors_timers rnd duration
              (pickCount cfg (selectNode st { n with autoLit := true }).neighbors.length)
              (selectNode st { n with autoLit := true }).neighbors
              { nodes := s.nodes.set k (selectNode st { n with autoLit := true })
                links := s.links
                autoActive := setAdd s.autoActive (Entity.node k)
                timers := s.timers
                running := s.running
                draws := s.draws + 1 }
            have hf := pickNeighbors_frame rnd duration
              (pickCount cfg (selectNode st { n with autoLit := true }).neighbors.length)
              (selectNode st { n with autoLit := true }).neighbors
              { nodes := s.nodes.set k (selectNode st { n with autoLit := true })
                links := s.links
                autoActive := setAdd s.autoActive (Entity.node k)
                timers := s.timers
                running := s.running
                draws := s.draws + 1 }
            refine ⟨k, n, cs, rfl, hk, by simpa using hlit, hf.1, hf.2.1, hf.2.2.1, hf.2.2.2,
              ?_, h3, fun h => absurd h (by decide)⟩
            simp only [h1]
          · exact ⟨k, n, [], rfl, hk, by simpa using hlit, rfl, rfl, rfl, rfl, by simp, by simp,
              fun h => absurd h (by decide)⟩

/-- The effect of `flashLinkRandomly`: nothing at all when it returns at its guard;
otherwise the link is lit, it joins the registry, and its animation is requested. -/
theorem flashLinkRandomly_effect (s : State) (link : Option Nat) (duration now : ℚ) :
    flashLinkRandomly s link duration now = s ∨
      ∃ k l, link = some k ∧ s.links[k]? = some l ∧ l.autoLit = false ∧
        flashLinkRandomly s link duration now =
          { s with
            links := s.links.set k { l with autoLit := true, emissive := 0x9ff7ff }
            autoActive := setAdd s.autoActive (Entity.link k)
            timers := s.timers ++
              [Timer.pulse k duration now l.baseEmissive l.baseEmissiveIntensity
                (l.scale.multiplyScalar (124 / 100))] } := by
  cases link with
  | none => exact Or.inl rfl
  | some k =>
    cases hk : s.links[k]? with
    | none => left; simp only [flashLinkRandomly, hk]
    | some l =>
      by_cases hlit : l.autoLit = true
      · left; simp only [flashLinkRandomly, hk, hlit, if_true]
      · right
        refine ⟨k, l, rfl, hk, by simpa using hlit, ?_⟩
        simp only [flashLinkRandomly, hk, hlit]
        rfl

/-! ## The registry and the flags -/

theorem mem_setAdd (set : List Entity) (x e : Entity) :
    e ∈ setAdd set x ↔ e ∈ set ∨ e = x := by
  unfold setAdd
  split_ifs with h
  · constructor
    · exact Or.inl
    · rintro (h1 | rfl)
      · exact h1
      · exact h
  · simp

theorem nodup_setAdd {set : List Entity} (x : Entity) (h : set.Nodup) :
    (setAdd set x).Nodup := by
  unfold setAdd
  split_ifs with hx
  · exact h
  · rw [List.nodup_append]
    exact ⟨h, List.nodup_singleton x, by
      intro a ha hb
      rw [List.mem_singleton] at hb
      exact hx (hb ▸ ha)⟩

theorem length_setAdd_le (set : List Entity) (x : Entity) :
    (setAdd set x).length ≤ set.length + 1 := by
  unfold setAdd
  split_ifs <;> simp

theorem mem_setDelete {set : List Entity} (x e : Entity) (h : set.Nodup) :
    e ∈ setDelete set x ↔ e ∈ set ∧ e ≠ x := by
  unfold setDelete
  rw [h.mem_erase_iff]
  exact And.comm

theorem flag_set {α : Type} (f : α → Bool) (l : List α) (k j : Nat) (a : α) :
    ((l.set k a)[j]?).map f =
      if k = j ∧ k < l.length then some (f a) else (l[j]?).map f := by
  rw [List.getElem?_set]
  by_cases h1 : k = j
  · subst h1
    by_cases h2 : k < l.length
    · simp [h2]
    · simp [h2, List.getElem?_eq_none (not_lt.mp h2)]
  · simp [h1]

theorem flag_set_same {α : Type} (f : α → Bool) {l : List α} {k : Nat} {a b : α}
    (hk : l[k]? = some a) (hf : f b = f a) (j : Nat) :
    ((l.set k b)[j]?).map f = (l[j]?).map f := by
  rw [flag_set]
  split_ifs with h
  · rw [← h.1, hk, hf]; rfl
  · rfl

theorem RegistryOk.sameFlags {s s' : State} (h : RegistryOk s)
    (hA : s'.autoActive = s.autoActive)
    (hN : ∀ k : Nat, (s'.nodes[k]?).map Node.autoLit = (s.nodes[k]?).map Node.autoLit)
    (hL : ∀ k : Nat, (s'.links[k]?).map Link.autoLit = (s.links[k]?).map Link.autoLit) :
    RegistryOk s' :=
  ⟨hA ▸ h.nodup, fun k => by rw [hA, hN]; exact h.nodes k,
    fun k => by rw [hA, hL]; exact h.links k⟩

theorem RegistryOk.lightNode {s s' : State} (h : RegistryOk s) {k : Nat} {n b : Node}
    (hk : s.nodes[k]? = some n) (hlit : b.autoLit = true)
    (hN : s'.nodes = s.nodes.set k b) (hL : s'.links = s.links)
    (hA : s'.autoActive = setAdd s.autoActive (Entity.node k)) : RegistryOk s' := by
  have hlt : k < s.nodes.length := (List.getElem?_eq_some.mp hk).1
  refine ⟨hA ▸ nodup_setAdd _ h.nodup, fun j => ?_, fun j => ?_⟩
  · rw [hA, hN, mem_setAdd, flag_set, h.nodes j]
    by_cases hj : k = j
    · subst hj; simp [hlit, hlt]
    · simp [hj, Ne.symm hj]
  · rw [hA, hL, mem_setAdd, h.links j]
    simp

theorem RegistryOk.lightLink {s s' : State} (h : RegistryOk s) {k : Nat} {l b : Link}
    (hk : s.links[k]? = some l) (hlit : b.autoLit = true)
    (hN : s'.nodes = s.nodes) (hL : s'.links = s.links.set k b)
    (hA : s'.autoActive = setAdd s.autoActive (Entity.link k)) : RegistryOk s' := by
  have hlt : k < s.links.length := (List.getElem?_eq_some.mp hk).1
  refine ⟨hA ▸ nodup_setAdd _ h.nodup, fun j => ?_, fun j => ?_⟩
  · rw [hA, hN, mem_setAdd, h.nodes j]
    simp
  · rw [hA, hL, mem_setAdd, flag_set, h.links j]
    by_cases hj : k = j
    · subst hj; simp [hlit, hlt]
    · simp [hj, Ne.symm hj]

theorem RegistryOk.idleNode {s s' : State} (h : RegistryOk s) {k : Nat} {n b : Node}
    (hk : s.nodes[k]? = some n) (hidle : b.autoLit = false)
    (hN : s'.nodes = s.nodes.set k b) (hL : s'.links = s.links)
    (hA : s'.autoActive = setDelete s.autoActive (Entity.node k)) : RegistryOk s' := by
  have hlt : k < s.nodes.length := (List.getElem?_eq_some.mp hk).1
  refine ⟨?_, fun j => ?_, fun j => ?_⟩
  · rw [hA]; exact h.nodup.erase _
  · rw [hA, hN, mem_setDelete _ _ h.nodup, flag_set, h.nodes j]
    by_cases hj : k = j
    · subst hj; simp [hidle, hlt]
    · simp [hj, Ne.symm hj]
  · rw [hA, hL, mem_setDelete _ _ h.nodup, h.links j]
    simp

theorem RegistryOk.idleLink {s s' : State} (h : RegistryOk s) {k : Nat} {l b : Link}
    (hk : s.links[k]? = some l) (hidle : b.autoLit = false)
    (hN : s'.nodes = s.nodes) (hL : s'.links = s.links.set k b)
    (hA : s'.autoActive = setDelete s.autoActive (Entity.link k)) : RegistryOk s' := by
  have hlt : k < s.links.length := (List.getElem?_eq_some.mp hk).1
  refine ⟨?_, fun j => ?_, fun j => ?_⟩
  · rw [hA]; exact h.nodup.erase _
  · rw [hA, hN, mem_setDelete _ _ h.nodup, h.nodes j]
    simp
  · rw [hA, hL, mem_setDelete _ _ h.nodup, flag_set, h.links j]
    by_cases hj : k = j
    · subst hj; simp [hidle, hlt]
    · simp [hj, Ne.symm hj]

theorem toggleSelection_autoLit (st : Style) (n : Node) :
    (toggleSelection st n).autoLit = n.autoLit := by
  unfold toggleSelection
  split_ifs
  · exact deselectNode_autoLit st n
  · exact selectNode_autoLit st n

theorem flashNodeRandomly_registryOk (st : Style) (cfg : AutoConfig) (rnd : Nat → ℚ)
    {s : State} (node : Option Nat) (duration : ℚ) (isClustered : Bool) (h : RegistryOk s) :
    RegistryOk (flashNodeRandomly st cfg rnd s node duration isClustered) := by
  rcases flashNodeRandomly_effect st cfg rnd s node duration isClustered with
    e | ⟨k, n, _, _, hk, _, hN, hL, hA, _, _, _, _⟩
  · rw [e]; exact h
  · exact h.lightNode hk (by rw [selectNode_autoLit]) hN hL hA

theorem flashLinkRandomly_registryOk {s : State} (link : Option Nat) (duration now : ℚ)
    (h : RegistryOk s) : RegistryOk (flashLinkRandomly s link duration now) := by
  rcases flashLinkRandomly_effect s link duration now with e | ⟨k, l, _, hk, _, e⟩
  · rw [e]; exact h
  · rw [e]; exact h.lightLink hk (b := { l with autoLit := true, emissive := 0x9ff7ff }) rfl
      rfl rfl rfl

theorem animatePulse_registryOk (sinPi : ℚ → ℚ) {s : State} (k : Nat) (duration start : ℚ)
    (baseEmissive : Nat) (baseIntensity : ℚ) (targetScale : Scale3) (now : ℚ)
    (h : RegistryOk s) :
    RegistryOk
      (animatePulse sinPi s k duration start baseEmissive baseIntensity targetScale now) := by
  cases hk : s.links[k]? with
  | none => simp only [animatePulse, hk]; exact h
  | some l =>
    simp only [animatePulse, hk]
    split_ifs
    · exact h.sameFlags rfl (fun _ => rfl) (fun j => by
        apply flag_set_same Link.autoLit hk
        rfl)
    · exact h.idleLink hk (b := { l with
          emissive := baseEmissive
          emissiveIntensity := baseIntensity
          scale := l.scale.lerp (l.scale.multiplyScalar (9999 / 10000)) (1 / 2)
          autoLit := false }) rfl rfl rfl rfl

theorem expire_registryOk (st : Style) {s : State} (k : Nat) (wasSelected : Bool)
    (h : RegistryOk s) : RegistryOk (expire st s k wasSelected) := by
  cases hk : s.nodes[k]? with
  | none => simp only [expire, hk]; exact h
  | some n =>
    simp only [expire, hk]
    refine h.idleNode hk (b := if (!wasSelected) = true then
      deselectNode st { n with autoLit := false } else { n with autoLit := false }) ?_ rfl rfl rfl
    split_ifs
    · rw [deselectNode_autoLit]
    · rfl

theorem burstLoop_registryOk (st : Style) (cfg : AutoConfig) (rnd : Nat → ℚ) (now : ℚ)
    (count : Nat) : ∀ s : State, RegistryOk s → RegistryOk (burstLoop st cfg rnd now count s) := by
  induction count with
  | zero => intro s h; exact h
  | succ c ih =>
    intro s h
    have h1 : ∀ d : Nat, RegistryOk { s with draws := d } := fun _ =>
      h.sameFlags rfl (fun _ => rfl) (fun _ => rfl)
    simp only [burstLoop]
    split_ifs
    · exact h
    · exact ih _ (h1 _)
    · exact ih _ (flashNodeRandomly_registryOk st cfg rnd _ _ _ (h1 _))
    · exact ih _ (h1 _)
    · exact ih _ (flashLinkRandomly_registryOk _ _ _ (h1 _))
    · exact ih _ (h1 _)

theorem step_registryOk (st : Style) (cfg : AutoConfig) (rnd : Nat → ℚ) (sinPi : ℚ → ℚ)
    {s : State} (e : Event) (h : RegistryOk s) : RegistryOk (step st cfg rnd sinPi s e) := by
  cases e with
  | tick now =>
    simp only [step]
    split_ifs
    · exact burstLoop_registryOk st cfg rnd now _ _
        (h.sameFlags rfl (fun _ => rfl) (fun _ => rfl))
    · exact h
  | timer idx now =>
    cases ht : s.timers[idx]? with
    | none => simp only [step, ht]; exact h
    | some t =>
      simp only [step, ht]
      have h1 : RegistryOk { s with timers := s.timers.eraseIdx idx } :=
        h.sameFlags rfl (fun _ => rfl) (fun _ => rfl)
      cases t with
      | expiry k w d => exact expire_registryOk st k w h1
      | cascade nb nd dl => exact flashNodeRandomly_registryOk st cfg rnd nb nd true h1
      | pulse k d s0 be bi ts => exact animatePulse_registryOk sinPi k d s0 be bi ts now h1
  | click k =>
    cases hk : s.nodes[k]? with
    | none => simp only [step, pointerDown, hk]; exact h
    | some n =>
      simp only [step, pointerDown, hk]
      exact h.sameFlags rfl
        (fun j => flag_set_same Node.autoLit hk (toggleSelection_autoLit st n) j) (fun _ => rfl)
  | keyC =>
    refine h.sameFlags rfl (fun j => ?_) (fun _ => rfl)
    simp only [step, clearAll, List.getElem?_map, Option.map_map]
    congr 1
    funext n
    exact deselectNode_autoLit st n
  | stop => exact h.sameFlags rfl (fun _ => rfl) (fun _ => rfl)

theorem initialState_registryOk (g : Graph) (radius intensity linkScale : Nat → ℚ) :
    RegistryOk (initialState g radius intensity linkScale) := by
  refine ⟨List.nodup_nil, fun k => ?_, fun k => ?_⟩
  · simp only [initialState, List.not_mem_nil, List.getElem?_map, Option.map_map, false_iff]
    cases (List.range g.neighbors.length)[k]? <;> simp [newNode]
  · simp only [initialState, List.not_mem_nil, List.getElem?_map, Option.map_map, false_iff]
    cases (List.range g.links.length)[k]? <;> simp [newLink]

theorem reachable_registryOk {st : Style} {cfg : AutoConfig} {rnd : Nat → ℚ} {sinPi : ℚ → ℚ}
    {s0 s : State} (h0 : RegistryOk s0) (h : Reachable st cfg rnd sinPi s0 s) :
    RegistryOk s := by
  induction h with
  | init => exact h0
  | next e _ ih => exact step_registryOk st cfg rnd sinPi e ih

/-- C20: in every state the page can reach, a node or link is in the registry exactly
when its `autoLit` flag is set, and a flash call on an entity whose flag is set returns
the state unchanged. -/
theorem registry_matches_flags (st : Style) (cfg : AutoConfig) (rnd : Nat → ℚ)
    (sinPi : ℚ → ℚ) (g : Graph) (radius intensity linkScale : Nat → ℚ) (s : State)
    (h : Reachable st cfg rnd sinPi (initialState g radius intensity linkScale) s) :
    (∀ k n, s.nodes[k]? = some n → (Entity.node k ∈ s.autoActive ↔ n.autoLit = true)) ∧
      (∀ k l, s.links[k]? = some l → (Entity.link k ∈ s.autoActive ↔ l.autoLit = true)) ∧
      (∀ e ∈ s.autoActive,
        (∃ k n, e = Entity.node k ∧ s.nodes[k]? = some n) ∨
          ∃ k l, e = Entity.link k ∧ s.links[k]? = some l) ∧
      (∀ k n duration isClustered, s.nodes[k]? = some n → n.autoLit = true →
        flashNodeRandomly st cfg rnd s (some k) duration isClustered = s) ∧
      ∀ k l duration now, s.links[k]? = some l → l.autoLit = true →
        flashLinkRandomly s (some k) duration now = s := by
  have hok := reachable_registryOk (initialState_registryOk g radius intensity linkScale) h
  refine ⟨fun k n hk => ?_, fun k l hk => ?_, fun e he => ?_, ?_, ?_⟩
  · rw [hok.nodes k, hk]; simp
  · rw [hok.links k, hk]; simp
  · cases e with
    | node k =>
      left
      have := (hok.nodes k).mp he
      cases hk : s.nodes[k]? with
      | none => rw [hk] at this; simp at this
      | some n => exact ⟨k, n, rfl, hk⟩
    | link k =>
      right
      have := (hok.links k).mp he
      cases hk : s.links[k]? with
      | none => rw [hk] at this; simp at this
      | some l => exact ⟨k, l, rfl, hk⟩
  · intro k n duration isClustered hk hlit
    simp only [flashNodeRandomly, hk, hlit, if_true]
  · intro k l duration now hk hlit
    simp only [flashLinkRandomly, hk, hlit, if_true]

/-! ## One burst -/

theorem TickOk.start (cap : Nat) (s : State) : TickOk cap s s :=
  ⟨le_max_left _ _, fun _ h => Or.inl h, fun _ h => h, fun _ h => h⟩

theorem TickOk.withDraws {cap : Nat} {s0 s : State} (h : TickOk cap s0 s) (d : Nat) :
    TickOk cap s0 { s with draws := d } :=
  ⟨h.size, h.fresh, h.nodes, h.links⟩

theorem flashNodeRandomly_tickOk (st : Style) (cfg : AutoConfig) (rnd : Nat → ℚ) {cap : Nat}
    {s0 s : State} (node : Option Nat) (duration : ℚ) (isClustered : Bool)
    (h : TickOk cap s0 s) (hroom : s.autoActive.length < cap) :
    TickOk cap s0 (flashNodeRandomly st cfg rnd s node duration isClustered) := by
  rcases flashNodeRandomly_effect st cfg rnd s node duration isClustered with
    e | ⟨k, n, _, _, hk, hidle, hN, hL, hA, _, _, _, _⟩
  · rw [e]; exact h
  · refine ⟨?_, ?_, ?_, ?_⟩
    · rw [hA]
      have := length_setAdd_le s.autoActive (Entity.node k)
      have := le_max_right s0.autoActive.length cap
      omega
    · intro e he
      rw [hA, mem_setAdd] at he
      rcases he with he | rfl
      · exact h.fresh e he
      · right
        exact h.nodes k (by rw [hk]; simp [hidle])
    · intro j hj
      rw [hN, flag_set] at hj
      split_ifs at hj with hc
      · rw [selectNode_autoLit] at hj
        exact absurd hj (by simp)
      · exact h.nodes j hj
    · intro j hj
      rw [hL] at hj
      exact h.links j hj

theorem flashLinkRandomly_tickOk {cap : Nat} {s0 s : State} (link : Option Nat)
    (duration now : ℚ) (h : TickOk cap s0 s) (hroom : s.autoActive.length < cap) :
    TickOk cap s0 (flashLinkRandomly s link duration now) := by
  rcases flashLinkRandomly_effect s link duration now with e | ⟨k, l, _, hk, hidle, e⟩
  · rw [e]; exact h
  · rw [e]
    refine ⟨?_, ?_, ?_, ?_⟩
    · have := length_setAdd_le s.autoActive (Entity.link k)
      have := le_max_right s0.autoActive.length cap
      show (setAdd s.autoActive (Entity.link k)).length ≤ _
      omega
    · intro e he
      rcases (mem_setAdd _ _ _).mp he with he | rfl
      · exact h.fresh e he
      · right
        exact h.links k (by rw [hk]; simp [hidle])
    · exact h.nodes
    · intro j hj
      have hj' : ((s.links.set k { l with autoLit := true, emissive := 0x9ff7ff })[j]?).map
          Link.autoLit = some false := hj
      rw [flag_set] at hj'
      split_ifs at hj' with hc
      · exact absurd hj' (by simp)
      · exact h.links j hj'

theorem burstLoop_tickOk (st : Style) (cfg : AutoConfig) (rnd : Nat → ℚ) (now : ℚ)
    (s0 : State) (count : Nat) :
    ∀ s : State, TickOk cfg.maxSimultaneous s0 s →
      TickOk cfg.maxSimultaneous s0 (burstLoop st cfg rnd now count s) := by
  induction count with
  | zero => intro s h; exact h
  | succ c ih =>
    intro s h
    simp only [burstLoop]
    split_ifs with h1
    · exact h
    · exact ih _ (h.withDraws _)
    · exact ih _ (flashNodeRandomly_tickOk st cfg rnd _ _ _ (h.withDraws _) (not_le.mp h1))
    · exact ih _ (h.withDraws _)
    · exact ih _ (flashLinkRandomly_tickOk _ _ _ (h.withDraws _) (not_le.mp h1))
    · exact ih _ (h.withDraws _)

/-- C16: whatever the burst size and the draws, when the burst loop returns the registry
holds at most `max(s, MAX_SIMULTANEOUS)` entities, `s` being its size at the start, and
every entity that was not in the registry at the start existed with `autoLit = false`;
the same holds of the whole callback of `autoTimer`. -/
theorem burst_respects_cap (st : Style) (cfg : AutoConfig) (rnd : Nat → ℚ) (now : ℚ)
    (s : State) :
    (∀ count : Nat,
      (burstLoop st cfg rnd now count s).autoActive.length ≤
          max s.autoActive.length cfg.maxSimultaneous ∧
        ∀ e ∈ (burstLoop st cfg rnd now count s).autoActive, e ∈ s.autoActive ∨ IdleIn s e) ∧
      (burstTick st cfg rnd now s).autoActive.length ≤
        max s.autoActive.length cfg.maxSimultaneous ∧
      ∀ e ∈ (burstTick st cfg rnd now s).autoActive, e ∈ s.autoActive ∨ IdleIn s e := by
  have h1 := fun count => burstLoop_tickOk st cfg rnd now s count s (TickOk.start _ s)
  have h2 := burstLoop_tickOk st cfg rnd now s (8 + ⌊rnd s.draws * 24⌋₊)
    { s with draws := s.draws + 1 } ((TickOk.start _ s).withDraws _)
  exact ⟨fun count => ⟨(h1 count).size, (h1 count).fresh⟩, h2.size, h2.fresh⟩

/-! ## Stopping the scheduler -/

theorem pickNeighbors_stop (rnd : Nat → ℚ) (duration : ℚ) (count : Nat) :
    ∀ (neigh : List Nat) (s : State),
      pickNeighbors rnd duration count neigh { s with running := false } =
        { pickNeighbors rnd duration count neigh s with running := false } := by
  induction count with
  | zero => intro neigh s; rfl
  | succ c ih =>
    intro neigh s
    simp only [pickNeighbors]
    exact ih (neigh.eraseIdx ⌊rnd s.draws * (neigh.length : ℚ)⌋₊)
      { s with
        draws := s.draws + 3
        timers := s.timers ++
          [Timer.cascade neigh[⌊rnd s.draws * (neigh.length : ℚ)⌋₊]?
            (max 220 (duration * (35 / 100 + rnd (s.draws + 1) * (6 / 10))))
            (20 + rnd (s.draws + 2) * 90)] }

theorem flashNodeRandomly_stop (st : Style) (cfg : AutoConfig) (rnd : Nat → ℚ) (s : State)
    (node : Option Nat) (duration : ℚ) (isClustered : Bool) :
    flashNodeRandomly st cfg rnd { s with running := false } node duration isClustered =
      { flashNodeRandomly st cfg rnd s node duration isClustered with running := false } := by
  cases node with
  | none => rfl
  | some k =>
    cases hk : s.nodes[k]? with
    | none => simp only [flashNodeRandomly, hk]
    | some n =>
      by_cases hlit : n.autoLit = true
      · simp only [flashNodeRandomly, hk, hlit, if_true]
      · simp only [flashNodeRandomly, hk, hlit]
        cases isClustered with
        | true => rfl
        | false =>
          simp only [Bool.false_eq_true, if_false]
          split_ifs
          · have := pickNeighbors_stop rnd duration
              (pickCount cfg (selectNode st { n with autoLit := true }).neighbors.length)
              (selectNode st { n with autoLit := true }).neighbors
              { nodes := s.nodes.set k (selectNode st { n with autoLit := true })
                links := s.links
                autoActive := setAdd s.autoActive (Entity.node k)
                timers := s.timers
                running := s.running
                draws := s.draws + 1 }
            simp only at this
            rw [this]
          · rfl

theorem fire_stop (st : Style) (cfg : AutoConfig) (rnd : Nat → ℚ) (sinPi : ℚ → ℚ) (s : State)
    (now : ℚ) (t : Timer) :
    fire st cfg rnd sinPi { s with running := false } now t =
      { fire st cfg rnd sinPi s now t with running := false } := by
  cases t with
  | expiry k w d =>
    cases hk : s.nodes[k]? with
    | none => simp only [fire, expire, hk]
    | some n => simp only [fire, expire, hk]
  | cascade nb nd dl => exact flashNodeRandomly_stop st cfg rnd s nb nd true
  | pulse k d s0 be bi ts =>
    cases hk : s.links[k]? with
    | none => simp only [fire, animatePulse, hk]
    | some l =>
      simp only [fire, animatePulse, hk]
      split_ifs <;> rfl

theorem step_timer_eq (st : Style) (cfg : AutoConfig) (rnd : Nat → ℚ) (sinPi : ℚ → ℚ)
    {s : State} {idx : Nat} {t : Timer} (now : ℚ) (ht : s.timers[idx]? = some t) :
    step st cfg rnd sinPi s (Event.timer idx now) =
      fire st cfg rnd sinPi { s with timers := s.timers.eraseIdx idx } now t := by
  simp only [step, ht]

theorem step_timer_stop (st : Style) (cfg : AutoConfig) (rnd : Nat → ℚ) (sinPi : ℚ → ℚ)
    (s : State) (idx : Nat) (now : ℚ) :
    step st cfg rnd sinPi (step st cfg rnd sinPi s Event.stop) (Event.timer idx now) =
      step st cfg rnd sinPi (step st cfg rnd sinPi s (Event.timer idx now)) Event.stop := by
  cases ht : s.timers[idx]? with
  | none => simp only [step, ht]
  | some t =>
    simp only [step, ht]
    exact fire_stop st cfg rnd sinPi { s with timers := s.timers.eraseIdx idx } now t

theorem expire_flag (st : Style) (s : State) (k : Nat) (wasSelected : Bool) :
    ((expire st s k wasSelected).nodes[k]?).map Node.autoLit ≠ some true := by
  cases hk : s.nodes[k]? with
  | none => simp only [expire, hk]; simp
  | some n =>
    simp only [expire, hk]
    rw [flag_set, if_pos ⟨rfl, (List.getElem?_eq_some.mp hk).1⟩]
    split_ifs
    · rw [deselectNode_autoLit]; simp
    · simp

theorem animatePulse_end_flag (sinPi : ℚ → ℚ) (s : State) (k : Nat) (duration start : ℚ)
    (baseEmissive : Nat) (baseIntensity : ℚ) (targetScale : Scale3) (now : ℚ)
    (hend : duration ≤ now - start) :
    ((animatePulse sinPi s k duration start baseEmissive baseIntensity targetScale
      now).links[k]?).map Link.autoLit ≠ some true := by
  cases hk : s.links[k]? with
  | none => simp only [animatePulse, hk]; simp
  | some l =>
    simp only [animatePulse, hk, not_lt.mpr hend, if_false]
    rw [flag_set, if_pos ⟨rfl, (List.getElem?_eq_some.mp hk).1⟩]
    simp

/-- C14: in every state the page can reach, `stop()` changes only the `running` flag:
nodes, links, registry and pending callbacks are as before; after it a tick of the
interval does nothing; every pending callback has the effect it would have had without
the stop; and when the expiry callback of a node, or the last animation frame of a link,
runs after the stop, that entity leaves the registry and its `autoLit` flag is false. -/
theorem stop_cancels_only_bursts (st : Style) (cfg : AutoConfig) (rnd : Nat → ℚ)
    (sinPi : ℚ → ℚ) (g : Graph) (radius intensity linkScale : Nat → ℚ) (s : State)
    (h : Reachable st cfg rnd sinPi (initialState g radius intensity linkScale) s) :
    ((step st cfg rnd sinPi s Event.stop).nodes = s.nodes ∧
        (step st cfg rnd sinPi s Event.stop).links = s.links ∧
        (step st cfg rnd sinPi s Event.stop).autoActive = s.autoActive ∧
        (step st cfg rnd sinPi s Event.stop).timers = s.timers) ∧
      (∀ now, step st cfg rnd sinPi (step st cfg rnd sinPi s Event.stop) (Event.tick now) =
        step st cfg rnd sinPi s Event.stop) ∧
      (∀ idx now,
        step st cfg rnd sinPi (step st cfg rnd sinPi s Event.stop) (Event.timer idx now) =
          step st cfg rnd sinPi (step st cfg rnd sinPi s (Event.timer idx now)) Event.stop) ∧
      (∀ idx k w d now, s.timers[idx]? = some (Timer.expiry k w d) →
        Entity.node k ∉
            (step st cfg rnd sinPi (step st cfg rnd sinPi s Event.stop)
              (Event.timer idx now)).autoActive ∧
          ∀ m, (step st cfg rnd sinPi (step st cfg rnd sinPi s Event.stop)
              (Event.timer idx now)).nodes[k]? = some m → m.autoLit = false) ∧
      ∀ idx k d start be bi ts now, s.timers[idx]? = some (Timer.pulse k d start be bi ts) →
        d ≤ now - start →
        Entity.link k ∉
            (step st cfg rnd sinPi (step st cfg rnd sinPi s Event.stop)
              (Event.timer idx now)).autoActive ∧
          ∀ l, (step st cfg rnd sinPi (step st cfg rnd sinPi s Event.stop)
              (Event.timer idx now)).links[k]? = some l → l.autoLit = false := by
  have hok := reachable_registryOk (initialState_registryOk g radius intensity linkScale) h
  have hafter : ∀ idx now, RegistryOk
      (step st cfg rnd sinPi (step st cfg rnd sinPi s Event.stop) (Event.timer idx now)) :=
    fun idx now => step_registryOk st cfg rnd sinPi _ (step_registryOk st cfg rnd sinPi _ hok)
  refine ⟨⟨rfl, rfl, rfl, rfl⟩, fun now => ?_, step_timer_stop st cfg rnd sinPi s, ?_, ?_⟩
  · simp [step]
  · intro idx k w d now ht
    have hflag : ((step st cfg rnd sinPi (step st cfg rnd sinPi s Event.stop)
        (Event.timer idx now)).nodes[k]?).map Node.autoLit ≠ some true := by
      rw [step_timer_stop, step_timer_eq st cfg rnd sinPi now ht]
      exact expire_flag st _ k w
    refine ⟨fun hmem => hflag (((hafter idx now).nodes k).mp hmem), fun m hm => ?_⟩
    rw [hm] at hflag
    simpa using hflag
  · intro idx k d start be bi ts now ht hend
    have hflag : ((step st cfg rnd sinPi (step st cfg rnd sinPi s Event.stop)
        (Event.timer idx now)).links[k]?).map Link.autoLit ≠ some true := by
      rw [step_timer_stop, step_timer_eq st cfg rnd sinPi now ht]
      exact animatePulse_end_flag sinPi _ k d start be bi ts now hend
    refine ⟨fun hmem => hflag (((hafter idx now).links k).mp hmem), fun l hl => ?_⟩
    rw [hl] at hflag
    simpa using hflag

/-! ## Durations -/

theorem burstDuration_range (cfg : AutoConfig) (r : ℚ) (h0 : 0 ≤ r) (h1 : r < 1)
    (hc : cfg.minFlashMs ≤ cfg.maxFlashMs) :
    cfg.minFlashMs ≤ cfg.minFlashMs + r * (cfg.maxFlashMs - cfg.minFlashMs) ∧
      cfg.minFlashMs + r * (cfg.maxFlashMs - cfg.minFlashMs) ≤ cfg.maxFlashMs := by
  have h2 : 0 ≤ cfg.maxFlashMs - cfg.minFlashMs := sub_nonneg.mpr hc
  constructor
  · nlinarith [mul_nonneg h0 h2]
  · nlinarith [mul_le_mul_of_nonneg_right (le_of_lt h1) h2]

theorem cascadeDuration_range (parent r : ℚ) (hp : 0 ≤ parent) (h1 : r < 1) :
    220 ≤ cascadeDuration parent r ∧ cascadeDuration parent r ≤ max 220 parent := by
  unfold cascadeDuration
  refine ⟨le_max_left _ _, max_le (le_max_left _ _) (le_trans ?_ (le_max_right _ _))⟩
  nlinarith [mul_nonneg hp (le_of_lt (sub_pos.mpr h1))]

theorem burstLoop_timers (st : Style) (cfg : AutoConfig) (rnd : Nat → ℚ)
    (hr : ∀ k, 0 ≤ rnd k ∧ rnd k < 1) (hc : cfg.minFlashMs ≤ cfg.maxFlashMs) (now : ℚ)
    (count : Nat) :
    ∀ s : State, ∀ t ∈ (burstLoop st cfg rnd now count s).timers,
      t ∈ s.timers ∨ ArmedInBurst cfg t := by
  induction count with
  | zero => intro s t ht; exact Or.inl ht
  | succ c ih =>
    intro s t ht
    simp only [burstLoop] at ht
    split_ifs at ht with h1 h2 h3 h4 h5
    · exact Or.inl ht
    · exact ih { s with draws := s.draws + 1 } t ht
    · rcases ih _ t ht with h | h
      · have hd := burstDuration_range cfg (rnd (s.draws + 1 + 1)) (hr _).1 (hr _).2 hc
        rcases flashNodeRandomly_effect st cfg rnd
            { s with draws := s.draws + 1 + 2 }
            (idleIndices Node.autoLit s.nodes)[⌊rnd (s.draws + 1) *
              ((idleIndices Node.autoLit s.nodes).length : ℚ)⌋₊]?
            (cfg.minFlashMs + rnd (s.draws + 1 + 1) * (cfg.maxFlashMs - cfg.minFlashMs)) false with
          e | ⟨k, n, cs, _, _, _, _, _, _, _, hT, hC, _⟩
        · rw [e] at h; exact Or.inl h
        · rw [hT, List.mem_append, List.mem_append, List.mem_singleton] at h
          rcases h with (h | h) | h
          · exact Or.inl h
          · right
            obtain ⟨nb, a, b, rfl⟩ := hC t h
            exact ⟨_, rnd a, hd.1, hd.2, (hr a).1, (hr a).2, rfl⟩
          · right
            rw [h]
            exact hd
      · exact Or.inr h
    · exact ih { s with draws := s.draws + 1 } t ht
    · rcases ih _ t ht with h | h
      · have hd := burstDuration_range cfg (rnd (s.draws + 1 + 1)) (hr _).1 (hr _).2 hc
        rcases flashLinkRandomly_effect { s with draws := s.draws + 1 + 2 }
            (idleIndices Link.autoLit s.links)[⌊rnd (s.draws + 1) *
              ((idleIndices Link.autoLit s.links).length : ℚ)⌋₊]?
            (cfg.minFlashMs + rnd (s.draws + 1 + 1) * (cfg.maxFlashMs - cfg.minFlashMs)) now with
          e | ⟨k, l, _, _, _, e⟩
        · rw [e] at h; exact Or.inl h
        · rw [e] at h
          rcases List.mem_append.mp h with h | h
          · exact Or.inl h
          · right
            rw [List.mem_singleton.mp h]
            exact hd
      · exact Or.inr h
    · exact ih { s with draws := s.draws + 1 } t ht

/-! ## Sampling in the sphere -/

/-- The function returns exactly when some round within the fuel accepts; it returns
the point of the first such round. -/
theorem randomPointInSphere_eq_some (rnd : Nat → ℚ) (radius : ℚ) (fuel : Nat) :
    ∀ (draws : Nat) (p : SpherePoint) (after : Nat),
      randomPointInSphere rnd radius fuel draws = some (p, after) ↔
        ∃ m, m < fuel ∧ after = draws + 3 * (m + 1) ∧
          p = cubePoint rnd radius (draws + 3 * m) ∧
          (cubePoint rnd radius (draws + 3 * m)).inside radius ∧
          ∀ i, i < m → ¬ (cubePoint rnd radius (draws + 3 * i)).inside radius := by
  induction fuel with
  | zero =>
    intro draws p after
    simp [randomPointInSphere]
  | succ fuel ih =>
    intro draws p after
    unfold randomPointInSphere
    split_ifs with h
    · constructor
      · intro e
        simp only [Option.some.injEq, Prod.mk.injEq] at e
        exact ⟨0, Nat.succ_pos _, by omega, e.1.symm, h, fun i hi => absurd hi (Nat.not_lt_zero i)⟩
      · rintro ⟨m, _, h2, h3, _, h5⟩
        cases m with
        | zero => simp only [Option.some.injEq, Prod.mk.injEq]; exact ⟨h3.symm, by omega⟩
        | succ m => exact absurd h (h5 0 (Nat.succ_pos _))
    · rw [ih]
      constructor
      · rintro ⟨m, h1, h2, h3, h4, h5⟩
        refine ⟨m + 1, by omega, by omega, ?_, ?_, ?_⟩
        · rw [h3]; congr 1; omega
        · have e : draws + 3 * (m + 1) = draws + 3 + 3 * m := by omega
          rw [e]; exact h4
        · intro i hi
          cases i with
          | zero => exact h
          | succ i =>
            have e : draws + 3 * (i + 1) = draws + 3 + 3 * i := by omega
            rw [e]; exact h5 i (by omega)
      · rintro ⟨m, h1, h2, h3, h4, h5⟩
        cases m with
        | zero => exact absurd h4 h
        | succ m =>
          have e : draws + 3 * (m + 1) = draws + 3 + 3 * m := by omega
          refine ⟨m, by omega, by omega, ?_, ?_, ?_⟩
          · rw [h3, e]
          · rw [← e]; exact h4
          · intro i hi
            have e' : draws + 3 * (i + 1) = draws + 3 + 3 * i := by omega
            rw [← e']; exact h5 (i + 1) (by omega)

unseal Rat.add Rat.mul Rat.inv Rat.sub in
/-- C12, at a failing input, with the source's constants: the burst flashes node 0 for
20 ms and its cluster burst gives the cascade on node 1 the duration 220 ms; and
whatever the draw, the cascade duration is longer than any parent duration up to
`MAX_FLASH_MS = 30`. -/
theorem cascade_outlasts_parent :
    (run refStyle refConfig drawsC flatSin pairScene [Event.tick 0]).timers =
        [Timer.cascade (some 1) 220 30, Timer.expiry 0 false 20, Timer.expiry 1 false 20] ∧
      ∀ duration r : ℚ, duration ≤ refConfig.maxFlashMs →
        duration < cascadeDuration duration r :=
  ⟨by decide, fun duration r hd =>
    lt_of_le_of_lt hd (lt_of_lt_of_le (by norm_num [refConfig]) (le_max_left _ _))⟩

unseal Rat.add Rat.mul Rat.inv Rat.sub in
/-- C13, counterexample, with the source's constants: the expiry callback armed for the
cascade flash of node 1 has the duration 220 ms, above `MAX_FLASH_MS = 30`. -/
theorem cascade_expiry_outside_range :
    (run refStyle refConfig drawsC flatSin pairScene
        [Event.tick 0, Event.stop, Event.timer 1 20, Event.timer 1 20, Event.timer 0 30]).timers =
        [Timer.expiry 1 false 220] ∧
      ¬ ((220 : ℚ) ≤ refConfig.maxFlashMs) := by
  decide

/-- C13, amended: for draws in [0, 1) and `MIN_FLASH_MS ≤ MAX_FLASH_MS`, every callback
that a burst arms is as `ArmedInBurst` says: the expiry of a top-level node flash and
the animation of a link flash last between `MIN_FLASH_MS` and `MAX_FLASH_MS`; the
expiry armed when a cascade callback runs has the duration `ndur` that the callback
carries; and that duration, `max(220, d * (0.35 + 0.6 r))` for a parent duration `d`, is
at least 220 and at most `max(220, d)`, hence at most `max(220, MAX_FLASH_MS)`. -/
theorem armed_durations (st : Style) (cfg : AutoConfig) (rnd : Nat → ℚ) (sinPi : ℚ → ℚ)
    (hr : ∀ k, 0 ≤ rnd k ∧ rnd k < 1) (hc : cfg.minFlashMs ≤ cfg.maxFlashMs) :
    (∀ (now : ℚ) (s : State), ∀ t ∈ (burstTick st cfg rnd now s).timers,
        t ∈ s.timers ∨ ArmedInBurst cfg t) ∧
      (∀ (s : State) (nb : Option Nat) (nd dl now : ℚ),
        (fire st cfg rnd sinPi s now (Timer.cascade nb nd dl)).timers = s.timers ∨
          ∃ k w, (fire st cfg rnd sinPi s now (Timer.cascade nb nd dl)).timers =
            s.timers ++ [Timer.expiry k w nd]) ∧
      (∀ parent r : ℚ, 0 ≤ parent → 0 ≤ r → r < 1 →
        220 ≤ cascadeDuration parent r ∧ cascadeDuration parent r ≤ max 220 parent) ∧
      ∀ (nb : Option Nat) (nd dl : ℚ), 0 ≤ cfg.minFlashMs →
        ArmedInBurst cfg (Timer.cascade nb nd dl) → 220 ≤ nd ∧ nd ≤ max 220 cfg.maxFlashMs := by
  refine ⟨fun now s t ht => ?_, fun s nb nd dl now => ?_,
    fun parent r hp _ h1 => cascadeDuration_range parent r hp h1, ?_⟩
  rotate_left 2
  · rintro nb nd dl hmin ⟨parent, r, h1, h2, _, h4, rfl⟩
    have hb := cascadeDuration_range parent r (le_trans hmin h1) h4
    exact ⟨hb.1, le_trans hb.2 (max_le_max (le_refl _) h2)⟩
  · exact burstLoop_timers st cfg rnd hr hc now _ { s with draws := s.draws + 1 } t ht
  · rcases flashNodeRandomly_effect st cfg rnd s nb nd true with
      e | ⟨k, n, cs, _, _, _, _, _, _, _, hT, _, hE⟩
    · left; exact congrArg State.timers e
    · right
      refine ⟨k, n.selected, ?_⟩
      rw [hE rfl] at hT
      simpa using hT

/-- Witness of C13 (amended): the source's constants and the draws that are all 0. -/
theorem armed_durations_witness :
    (∀ (now : ℚ) (s : State), ∀ t ∈ (burstTick refStyle refConfig zeroDraws now s).timers,
        t ∈ s.timers ∨ ArmedInBurst refConfig t) ∧
      (∀ (s : State) (nb : Option Nat) (nd dl now : ℚ),
        (fire refStyle refConfig zeroDraws flatSin s now (Timer.cascade nb nd dl)).timers =
            s.timers ∨
          ∃ k w, (fire refStyle refConfig zeroDraws flatSin s now
              (Timer.cascade nb nd dl)).timers = s.timers ++ [Timer.expiry k w nd]) ∧
      (∀ parent r : ℚ, 0 ≤ parent → 0 ≤ r → r < 1 →
        220 ≤ cascadeDuration parent r ∧ cascadeDuration parent r ≤ max 220 parent) ∧
      ∀ (nb : Option Nat) (nd dl : ℚ), 0 ≤ refConfig.minFlashMs →
        ArmedInBurst refConfig (Timer.cascade nb nd dl) →
        220 ≤ nd ∧ nd ≤ max 220 refConfig.maxFlashMs :=
  armed_durations refStyle refConfig zeroDraws flatSin
    (fun _ => ⟨le_refl 0, by norm_num [zeroDraws]⟩) (by norm_num [refConfig])

unseal Rat.add Rat.mul Rat.inv Rat.sub in
/-- C18, at a failing input, with the source's constants: link 0 has scale `(1, 1, 1)`
before its flash of 20 ms.  With one animation frame at 10 ms and the finishing frame at
20 ms, the link gets back its base emissive colour and intensity, but its scale is
`79996/78125 = 1.0239488` in every component; with no frame before the finishing one the
scale is `19999/20000 = 0.99995`. -/
theorem link_scale_not_restored :
    pairScene.links.map Link.scale = [⟨1, 1, 1⟩] ∧
      (run refStyle refConfig drawsLink peakSin pairScene [Event.tick 0]).timers =
        [Timer.pulse 0 20 0 0x001a2b (12 / 100) ⟨124 / 100, 124 / 100, 124 / 100⟩] ∧
      (run refStyle refConfig drawsLink peakSin pairScene
          [Event.tick 0, Event.timer 0 10, Event.timer 0 20]).links =
        [{ emissive := 0x001a2b, emissiveIntensity := 12 / 100,
           scale := ⟨79996 / 78125, 79996 / 78125, 79996 / 78125⟩,
           baseEmissive := 0x001a2b, baseEmissiveIntensity := 12 / 100, autoLit := false }] ∧
      (run refStyle refConfig drawsLink peakSin pairScene
          [Event.tick 0, Event.timer 0 20]).links.map Link.scale =
        [⟨19999 / 20000, 19999 / 20000, 19999 / 20000⟩] := by
  decide

theorem litPair_reachable :
    Reachable refStyle refConfig drawsC flatSin
      (initialState (buildEdges [⟨0, 0, 0⟩, ⟨8, 0, 0⟩] 8 2) (fun _ => 1 / 5) (fun _ => 1)
        (fun _ => 1)) litPair :=
  reachable_run refStyle refConfig drawsC flatSin pairScene [Event.tick 0]

unseal Rat.add Rat.mul Rat.inv Rat.sub in
/-- Witness of C20: the two-node scene after a burst that lights both nodes. -/
theorem registry_matches_flags_witness :
    litPair.autoActive = [Entity.node 0, Entity.node 1] ∧
      ((∀ k n, litPair.nodes[k]? = some n →
          (Entity.node k ∈ litPair.autoActive ↔ n.autoLit = true)) ∧
        (∀ k l, litPair.links[k]? = some l →
          (Entity.link k ∈ litPair.autoActive ↔ l.autoLit = true)) ∧
        (∀ e ∈ litPair.autoActive,
          (∃ k n, e = Entity.node k ∧ litPair.nodes[k]? = some n) ∨
            ∃ k l, e = Entity.link k ∧ litPair.links[k]? = some l) ∧
        (∀ k n duration isClustered, litPair.nodes[k]? = some n → n.autoLit = true →
          flashNodeRandomly refStyle refConfig drawsC litPair (some k) duration isClustered =
            litPair) ∧
        ∀ k l duration now, litPair.links[k]? = some l → l.autoLit = true →
          flashLinkRandomly litPair (some k) duration now = litPair) :=
  ⟨by decide,
    registry_matches_flags refStyle refConfig drawsC flatSin _ _ _ _ litPair litPair_reachable⟩

unseal Rat.add Rat.mul Rat.inv Rat.sub in
/-- Witness of C14: the two-node scene after a burst, with the expiry of node 0 pending
at index 1. -/
theorem stop_cancels_only_bursts_witness :
    litPair.timers =
        [Timer.cascade (some 1) 220 30, Timer.expiry 0 false 20, Timer.expiry 1 false 20] ∧
      (((step refStyle refConfig drawsC flatSin litPair Event.stop).nodes = litPair.nodes ∧
          (step refStyle refConfig drawsC flatSin litPair Event.stop).links = litPair.links ∧
          (step refStyle refConfig drawsC flatSin litPair Event.stop).autoActive =
            litPair.autoActive ∧
          (step refStyle refConfig drawsC flatSin litPair Event.stop).timers = litPair.timers) ∧
        (∀ now,
          step refStyle refConfig drawsC flatSin
              (step refStyle refConfig drawsC flatSin litPair Event.stop) (Event.tick now) =
            step refStyle refConfig drawsC flatSin litPair Event.stop) ∧
        (∀ idx now,
          step refStyle refConfig drawsC flatSin
              (step refStyle refConfig drawsC flatSin litPair Event.stop)
              (Event.timer idx now) =
            step refStyle refConfig drawsC flatSin
              (step refStyle refConfig drawsC flatSin litPair (Event.timer idx now))
              Event.stop) ∧
        (∀ idx k w d now, litPair.timers[idx]? = some (Timer.expiry k w d) →
          Entity.node k ∉
              (step refStyle refConfig drawsC flatSin
                (step refStyle refConfig drawsC flatSin litPair Event.stop)
                (Event.timer idx now)).autoActive ∧
            ∀ m, (step refStyle refConfig drawsC flatSin
                (step refStyle refConfig drawsC flatSin litPair Event.stop)
                (Event.timer idx now)).nodes[k]? = some m → m.autoLit = false) ∧
        ∀ idx k d start be bi ts now,
          litPair.timers[idx]? = some (Timer.pulse k d start be bi ts) → d ≤ now - start →
          Entity.link k ∉
              (step refStyle refConfig drawsC flatSin
                (step refStyle refConfig drawsC flatSin litPair Event.stop)
                (Event.timer idx now)).autoActive ∧
            ∀ l, (step refStyle refConfig drawsC flatSin
                (step refStyle refConfig drawsC flatSin litPair Event.stop)
                (Event.timer idx now)).links[k]? = some l → l.autoLit = false) :=
  ⟨by decide,
    stop_cancels_only_bursts refStyle refConfig drawsC flatSin _ _ _ _ litPair litPair_reachable⟩

/-! ## The same defects with the constants of the source -/

set_option maxRecDepth 100000 in
/-- With `MIN_DIST_FOR_EDGE = 8` and `MAX_EDGES_PER_NODE = 2` on the 27 grid nodes, the
loop leaves nodes of degree 3 and 4 and makes 41 links, more than `27 * 2 / 2`. -/
theorem grid_degrees_exceed_cap :
    (buildEdges gridNodes 8 2).degrees =
        [2, 3, 3, 3, 4, 4, 3, 4, 4, 2, 3, 4, 3, 4, 4, 4, 4, 4, 2, 3, 3, 2, 2, 2, 2, 2, 2] ∧
      (buildEdges gridNodes 8 2).links.length = 41 := by
  decide

set_option maxRecDepth 100000 in
unseal Rat.add Rat.mul Rat.inv Rat.sub in
/-- With `MAX_SIMULTANEOUS = 20` on the grid scene: one burst of size 20 lights the nodes
0 to 19, filling the registry; the cascade armed by node 19 runs 20 ms later, before any
of the 29 ms flashes ends, and lights node 25: the registry holds 21 entities. -/
theorem grid_registry_exceeds_cap :
    (run refStyle refConfig drawsGrid flatSin gridScene [Event.tick 0]).autoActive.length = 20 ∧
      (run refStyle refConfig drawsGrid flatSin gridScene [Event.tick 0]).timers.get? 19 =
        some (Timer.cascade (some 25) 220 20) ∧
      (run refStyle refConfig drawsGrid flatSin gridScene
        [Event.tick 0, Event.timer 19 20]).autoActive.length = 21 := by
  decide

end HopfieldLab
